import Mathlib

/-!
# map-search: verification of the POI ingestion pipeline

Shallow embedding of `app/controllers/indexController.js` (row parser, record
validator, upload handler and read handlers), `app/models/indexModel.js` (batch
replace engine and queries) and `app/entities/PoiEntity.js` (sample data SQL),
followed by the theorems that settle the claims of the specification.

Conventions of the embedding

* A JavaScript number is a `JSNum`: `NaN`, the two infinities, or a finite
  value carried as an exact rational (every finite double is a rational, and
  the code only compares numbers with constants, so nothing is rounded).
* A JavaScript string is a `String`; `trim` removes the ECMAScript
  `WhiteSpace` and `LineTerminator` code points from both ends.
* Asynchronous store calls and callbacks are modelled by the sequence of
  observable events they produce, the replies of the store being given by a
  `Store` value.
-/

namespace MapSearch

/-! ## JavaScript values -/

/-- A JavaScript number: `NaN`, `-Infinity`, a finite value, or `+Infinity`. -/
inductive JSNum where
  | nan : JSNum
  | negInf : JSNum
  | fin (q : ℚ) : JSNum
  | posInf : JSNum
  deriving DecidableEq, Repr

namespace JSNum

/-- The JavaScript comparison `a <= b` on numbers (false as soon as one side is `NaN`). -/
def le : JSNum → JSNum → Bool
  | nan, _ => false
  | _, nan => false
  | negInf, _ => true
  | _, posInf => true
  | fin a, fin b => decide (a ≤ b)
  | fin _, negInf => false
  | posInf, fin _ => false
  | posInf, negInf => false

/-- The JavaScript comparison `a >= b` on numbers. -/
def ge (a b : JSNum) : Bool := le b a

/-- The JavaScript comparison `a === b` on numbers (`NaN` equals nothing, `-0 === 0`). -/
def strictEq : JSNum → JSNum → Bool
  | nan, _ => false
  | _, nan => false
  | a, b => decide (a = b)

end JSNum

/-- Code points removed by `String.prototype.trim`: ECMAScript `WhiteSpace`
(TAB, VT, FF, SP, NBSP, ZWNBSP and the Unicode space separators) and
`LineTerminator` (LF, CR, LS, PS). -/
def isJSWhiteSpace (c : Char) : Bool :=
  let n := c.toNat
  n == 0x09 || n == 0x0A || n == 0x0B || n == 0x0C || n == 0x0D || n == 0x20 ||
  n == 0xA0 || n == 0x1680 || (0x2000 ≤ n && n ≤ 0x200A) || n == 0x2028 ||
  n == 0x2029 || n == 0x202F || n == 0x205F || n == 0x3000 || n == 0xFEFF

/-- Trimming of a list of characters at both ends. -/
def trimChars (cs : List Char) : List Char :=
  ((cs.dropWhile isJSWhiteSpace).reverse.dropWhile isJSWhiteSpace).reverse

/-- The method `String.prototype.trim`. -/
def jsTrim (s : String) : String := ⟨trimChars s.data⟩

/-- The method `Array.prototype.join` on an array of strings. -/
def jsJoin (sep : String) (xs : List String) : String := sep.intercalate xs

/-- The method `Array.prototype.slice(start, end)` for non-negative integer arguments. -/
def jsSlice {α : Type} (xs : List α) (start stop : Nat) : List α :=
  (xs.drop start).take (stop - start)

/-! ## Data model -/

/-- A candidate record / POI object
`{ id, title, latitude, longitude, created_at }`. -/
structure Poi where
  id : String
  title : String
  latitude : JSNum
  longitude : JSNum
  created_at : Option String
  deriving DecidableEq, Repr

/-! ## Record validator (`indexController.js`, lines 36-64) -/

/-- Source: `isValidCoordinate(lat, lng)`. -/
def isValidCoordinate (lat lng : JSNum) : Bool :=
  JSNum.ge lat (.fin (-90)) && JSNum.le lat (.fin 90) &&
  JSNum.ge lng (.fin (-180)) && JSNum.le lng (.fin 180)

/-- The pair `{ validPois, errors }` returned by `validatePoiList`. -/
structure ValidationResult where
  validPois : List Poi
  errors : List String
  deriving DecidableEq, Repr

/-- The array `issues` built for one record by the body of the `forEach` callback
(lines 52-57): four conditional `push` calls in sequence. -/
def collectIssues (poi : Poi) : List String :=
  let issues : List String := []
  let issues := if poi.title == "" || jsTrim poi.title == "" then issues ++ ["title is empty"] else issues
  let issues := if JSNum.strictEq poi.latitude (.fin 0) then issues ++ ["latitude is invalid"] else issues
  let issues := if JSNum.strictEq poi.longitude (.fin 0) then issues ++ ["longitude is invalid"] else issues
  let issues := if !isValidCoordinate poi.latitude poi.longitude
    then issues ++ ["coordinates are out of range"] else issues
  issues

/-- The template literal of line 59. -/
def rowMessage (index : Nat) (issues : List String) : String :=
  "Row " ++ toString (index + 1) ++ ": " ++ jsJoin ", " issues

/-- One call of the `forEach` callback (lines 51-61) on `(poi, index)`. -/
def validateStep (acc : ValidationResult) (poi : Poi) (index : Nat) : ValidationResult :=
  let issues := collectIssues poi
  if issues.length > 0 then
    { acc with errors := acc.errors ++ [rowMessage index issues] }
  else
    { acc with validPois := acc.validPois ++ [poi] }

/-- The loop `poiList.forEach((poi, index) => ...)`, from position `index` on. -/
def validateLoop : List Poi → Nat → ValidationResult → ValidationResult
  | [], _, acc => acc
  | poi :: rest, index, acc => validateLoop rest (index + 1) (validateStep acc poi index)

/-- Source: `validatePoiList(poiList)`. -/
def validatePoiList (poiList : List Poi) : ValidationResult :=
  validateLoop poiList 0 { validPois := [], errors := [] }

/-! ## Row parser (`indexController.js`, lines 27-45) -/

/-- A raw cell value of a sheet row, or the result of reading an absent column. -/
inductive JSVal where
  | undefined : JSVal
  | null : JSVal
  | bool (b : Bool) : JSVal
  | num (n : JSNum) : JSVal
  | str (s : String) : JSVal
  deriving DecidableEq, Repr

/-- Truthiness of a value, as used by the operator `||`. -/
def JSVal.truthy : JSVal → Bool
  | .undefined => false
  | .null => false
  | .bool b => b
  | .num n => !(decide (n = .nan) || decide (n = .fin 0))
  | .str s => !(s == "")

/-- The operator `a || b`. -/
def jsOr (a b : JSVal) : JSVal := if a.truthy then a else b

/-- One row of `sheet_to_json`: column label to raw value. -/
abbrev Row := List (String × JSVal)

/-- Property access `row.label` (`undefined` when the label is absent). -/
def Row.get (row : Row) (label : String) : JSVal := (row.lookup label).getD .undefined

/-- The built-ins of the JavaScript platform that the parser calls: the global
`parseFloat`, `Number.prototype.toString`, and the identifier returned by the
`n`-th call of `crypto.randomUUID()`. -/
structure Host where
  parseFloat : String → JSNum
  numberToString : JSNum → String
  randomUUID : Nat → String

/-- Source: `parseCoordinate(value)`. -/
def parseCoordinate (host : Host) (value : JSVal) : JSNum :=
  match value with
  | .num n => n
  | .str s =>
    let parsed := host.parseFloat s
    if parsed = .nan then .fin 0 else parsed
  | _ => .fin 0

/-- The call `.toString()` of line 41. Its receiver is truthy or the literal
empty string, so the two nullish cases are never reached. -/
def jsToString (host : Host) : JSVal → String
  | .str s => s
  | .num n => host.numberToString n
  | .bool b => if b then "true" else "false"
  | .undefined => ""
  | .null => ""

/-- Source: `toPoiFromExcelRow(row)`; `call` numbers the calls of `crypto.randomUUID()`. -/
def toPoiFromExcelRow (host : Host) (call : Nat) (row : Row) : Poi :=
  let title := jsToString host
    (jsOr (jsOr (jsOr (row.get "title") (row.get "Title")) (row.get "TITLE")) (.str ""))
  let latitude := parseCoordinate host
    (jsOr (jsOr (jsOr (row.get "latitude") (row.get "Latitude")) (row.get "LATITUDE"))
      (.num (.fin 0)))
  let longitude := parseCoordinate host
    (jsOr (jsOr (jsOr (row.get "longitude") (row.get "Longitude")) (row.get "LONGITUDE"))
      (.num (.fin 0)))
  { id := host.randomUUID call, title := jsTrim title, latitude := latitude,
    longitude := longitude, created_at := none }

/-- Lines 92-93 and 113-119 of `uploadExcel`: the rows are parsed in order,
validated, and the accepted records are copied field by field into the array
handed to `updatePoiData`. -/
def uploadAccepted (host : Host) (jsonRows : List Row) : List Poi :=
  ((validatePoiList (jsonRows.enum.map (fun ir => toPoiFromExcelRow host ir.1 ir.2))).validPois).map
    (fun poi => { id := poi.id, title := poi.title, latitude := poi.latitude,
                  longitude := poi.longitude, created_at := poi.created_at })

/-! ## Batch replace engine (`indexModel.js`, lines 23-65) -/

/-- A JavaScript `Error` object: its message and, for store errors, its `code`. -/
structure JSError where
  message : String
  code : Option String
  deriving DecidableEq, Repr

/-- Outcome of one asynchronous store operation of `db.psql.js`: the promise
resolves and the success callback receives `result.rowCount`, or it rejects and
the error callback receives the error. -/
inductive StoreReply where
  | ok (rowCount : Nat) : StoreReply
  | fail (err : JSError) : StoreReply
  deriving DecidableEq, Repr

/-- Behaviour of the persistence collaborator during one run: the reply to
`psql.delete('poi', 'deleteAllPoi', {})` and the reply to the `k`-th call
(counted from 0) of `psql.insert('poi', 'insertPoi', { list })`. -/
structure Store where
  delete : StoreReply
  insert : Nat → List Poi → StoreReply

/-- Observable effects of `updatePoiData`: calls made to the store and calls made
to the two callbacks. -/
inductive Event where
  | delete : Event
  | insert (list : List Poi) : Event
  | onSuccess (result : Nat) : Event
  | onError (error : JSError) : Event
  deriving DecidableEq, Repr

/-- The constant `batchSize` of line 33. -/
def batchSize : Nat := 1000


/-- Source: the closure `processBatch(startIndex)` of lines 37-59. The closure
variables `poiData`, `totalCount` and `processedCount` are parameters; `calls`
counts the inserts issued so far and only selects the reply of the store. The
result is the sequence of events from this call on. -/
def processBatch (store : Store) (poiData : List Poi) (totalCount : Nat)
    (calls processedCount startIndex : Nat) : List Event :=
  let endIndex := min (startIndex + batchSize) totalCount
  let batch := jsSlice poiData startIndex endIndex
  if h : batch.length = 0 then
    [Event.onSuccess totalCount]
  else
    Event.insert batch ::
      match store.insert calls batch with
      | .ok _ =>
        let processedCount := processedCount + batch.length
        if processedCount ≥ totalCount then
          [Event.onSuccess totalCount]
        else
          processBatch store poiData totalCount (calls + 1) processedCount endIndex
      | .fail err => [Event.onError err]
termination_by totalCount - startIndex
decreasing_by
  have hlen : ¬ (jsSlice poiData startIndex (min (startIndex + batchSize) totalCount)).length = 0 := h
  simp only [jsSlice, List.length_take, List.length_drop] at hlen
  omega

/-- Source: `exports.updatePoiData(poiData, onSuccess, onError)`; `none` stands
for a `null` or `undefined` argument. -/
def updatePoiData (store : Store) (poiData : Option (List Poi)) : List Event :=
  match poiData with
  | none => [Event.onError ⟨"POI 데이터가 비어있습니다.", none⟩]
  | some l =>
    if l.length = 0 then [Event.onError ⟨"POI 데이터가 비어있습니다.", none⟩]
    else
      Event.delete ::
        match store.delete with
        | .ok _ => processBatch store l l.length 0 0 0
        | .fail err => [Event.onError err]

/-- The `k`-th chunk (counted from 0) of a list cut into pieces of 1000 records. -/
def chunkAt (l : List Poi) (k : Nat) : List Poi := (l.drop (1000 * k)).take 1000

/-- The number `ceil(n / 1000)` of chunks needed for `n` records. -/
def chunkCount (n : Nat) : Nat := (n + 999) / 1000

/-- The partition of a list into fixed-size chunks of 1000 records, in order. -/
def specChunks (l : List Poi) : List (List Poi) :=
  (List.range (chunkCount l.length)).map (chunkAt l)

/-- An explicit loop over the chunks, the `k`-th insert first, leaving at the
first failure and signalling success with `totalCount` after the last chunk. -/
def iterativeInsert (store : Store) (totalCount : Nat) : Nat → List (List Poi) → List Event
  | _, [] => [Event.onSuccess totalCount]
  | k, chunk :: rest =>
    Event.insert chunk ::
      match store.insert k chunk with
      | .ok _ => iterativeInsert store totalCount (k + 1) rest
      | .fail err => [Event.onError err]

/-- The batches passed to `psql.insert`, in call order. -/
def insertCalls (trace : List Event) : List (List Poi) :=
  trace.filterMap (fun e => match e with | .insert l => some l | _ => none)

/-- The values passed to `onSuccess`, in call order. -/
def successCalls (trace : List Event) : List Nat :=
  trace.filterMap (fun e => match e with | .onSuccess n => some n | _ => none)

/-- The delete and every insert that is issued for `l` succeed. -/
def Store.succeedsOn (store : Store) (l : List Poi) : Prop :=
  (∃ n, store.delete = .ok n) ∧
  ∀ k, k < chunkCount l.length → ∃ n, store.insert k (chunkAt l k) = .ok n

/-! ## Upload controller (`indexController.js`, lines 66-179) -/

/-- The payload `resultData` of a response: `{}`, `{ errors }`,
`{ count, filename, errors }` (with `errors` possibly `undefined`), or an array of
rows. -/
inductive ResultData where
  | empty : ResultData
  | validation (errors : List String) : ResultData
  | upload (count : Nat) (filename : String) (errors : Option (List String)) : ResultData
  | rows (data : List Poi) : ResultData
  deriving DecidableEq, Repr

/-- The uniform response object. -/
structure Envelope where
  statusCode : Nat
  statusMessage : String
  errorCode : Option Nat
  errorMessage : Option String
  resultData : ResultData
  resultCnt : Nat
  deriving DecidableEq, Repr

/-- Modelled from the spec: `getReturnMessage` of `app/modules/func-common.js`, a
module that is required by the controller but is not part of the source tree.
Section 6 of the specification: the object carries `statusCode`, `statusMessage`,
`resultData` and `resultCnt`, and on error also `errorCode` and `errorMessage`,
which mirror `statusCode` and `statusMessage`. -/
def getReturnMessage (isErr : Bool) (code : Nat) (message : String) (resultData : ResultData)
    (resultCnt : Nat) : Envelope :=
  { statusCode := code, statusMessage := message,
    errorCode := if isErr then some code else none,
    errorMessage := if isErr then some message else none,
    resultData := resultData, resultCnt := resultCnt }

/-- Source: `buildOk(message, resultData, resultCnt)`. -/
def buildOk (message : String) (resultData : ResultData) (resultCnt : Nat) : Envelope :=
  getReturnMessage false 200 message resultData resultCnt

/-- Source: `buildErr(code, message, resultData, resultCnt)`; the call sites that
omit the last two arguments pass the defaults `{}` and `0`. -/
def buildErr (code : Nat) (message : String) (resultData : ResultData) (resultCnt : Nat) :
    Envelope :=
  getReturnMessage true code message resultData resultCnt

/-- The object `req.file` set by the upload middleware. -/
structure UploadedFile where
  path : String
  originalname : String
  deriving DecidableEq, Repr

/-- What the handler of `uploadExcel` reads besides the request: the platform
built-ins and the outcome of lines 86-89 (`xlsx.readFile` of the temporary file,
then `sheet_to_json` of its first sheet), which is a list of rows or an exception. -/
structure UploadEnv where
  host : Host
  readSheet : String → Except JSError (List Row)

/-- Observable effects of the handler of `uploadExcel`: `fs.unlinkSync(path)`, the
call `indexModel.updatePoiData(data, ...)`, an action of the model during that
call, and a response `res.status(status).json(body)` (`res.json(body)` answers
with status 200). -/
inductive UploadEvent where
  | unlink (path : String) : UploadEvent
  | updatePoiData (data : List Poi) : UploadEvent
  | model (e : Event) : UploadEvent
  | respond (status : Nat) (body : Envelope) : UploadEvent
  deriving DecidableEq, Repr

/-- Line 92: `jsonRows.map(toPoiFromExcelRow)`. -/
def parseRows (host : Host) (jsonRows : List Row) : List Poi :=
  jsonRows.enum.map (fun ir => toPoiFromExcelRow host ir.1 ir.2)

/-- The message of lines 130-134. -/
def uploadMessage (result : Nat) (errors : List String) : String :=
  let baseMessage := toString result ++ "개의 POI 데이터가 성공적으로 업데이트되었습니다."
  if errors.length > 0 then
    baseMessage ++ " (" ++ toString errors.length ++ "개 행에서 오류 발생)"
  else baseMessage

/-- The reaction of the handler to one action of the model: the two callbacks of
lines 123-163 answer a call of `onSuccess(result)` and of `onError(error)`. -/
def uploadCallback (file : UploadedFile) (errors : List String) (validPoiData : List Poi)
    (e : Event) : List UploadEvent :=
  match e with
  | .onSuccess result =>
    [.model e,
     .respond 200 (buildOk (uploadMessage result errors)
       (.upload result file.originalname (if errors.length > 0 then some errors else none))
       (if result ≠ 0 then result else validPoiData.length))]
  | .onError _ =>
    [.model e, .respond 500 (buildErr 500 "POI 데이터 업데이트 중 오류가 발생했습니다." .empty 0)]
  | _ => [.model e]

/-- Source: the handler of `exports.uploadExcel` (lines 79-178). `model` is the
behaviour of `indexModel.updatePoiData` on the data it is given. The temporary
file written by the upload middleware exists until it is unlinked, so
`fs.existsSync` answers `true` in the `catch` block when `readSheet` has thrown. -/
def uploadExcel (env : UploadEnv) (model : List Poi → List Event) (file : Option UploadedFile) :
    List UploadEvent :=
  match file with
  | none => [.respond 400 (buildErr 400 "파일이 업로드되지 않았습니다." .empty 0)]
  | some file =>
    match env.readSheet file.path with
    | .error _ =>
      [.unlink file.path,
       .respond 500 (buildErr 500 "엑셀 파일 처리 중 오류가 발생했습니다." .empty 0)]
    | .ok jsonRows =>
      let pois := parseRows env.host jsonRows
      let result := validatePoiList pois
      let validPoiData := result.validPois.map
        (fun poi => { id := poi.id, title := poi.title, latitude := poi.latitude,
                      longitude := poi.longitude, created_at := poi.created_at : Poi })
      let proceed := UploadEvent.updatePoiData validPoiData ::
        (model validPoiData).flatMap (uploadCallback file result.errors validPoiData)
      .unlink file.path ::
        if result.errors.length > 0 then
          if result.validPois.length = 0 then
            [.respond 400
              (buildErr 400 "데이터 검증 중 오류가 발생했습니다." (.validation result.errors) 0)]
          else proceed
        else proceed

/-! ## Read controllers (`indexController.js`, lines 181-254; `indexModel.js`, lines 67-73) -/

/-- Outcome of one call of `psql.select`: the success callback receives the rows,
or the error callback receives the error. -/
inductive SelectReply where
  | ok (data : List Poi) : SelectReply
  | fail (err : JSError) : SelectReply
  deriving DecidableEq, Repr

/-- Behaviour of the persistence collaborator for reads: the reply to
`psql.select(mapperName, queryId, param)`, where `param` is `{}` (`none`) or
`{ searchText }`. -/
structure ReadStore where
  select : String → String → Option String → SelectReply

/-- Observable effects of the two read handlers: the calls
`indexModel.getAllPoi(...)` and `indexModel.searchPoiByName(searchText, ...)`, the
call of `psql.select` made by the model, and the response. -/
inductive ReadEvent where
  | getAllPoi : ReadEvent
  | searchPoiByName (searchText : String) : ReadEvent
  | select (mapperName queryId : String) (searchText : Option String) : ReadEvent
  | respond (status : Nat) (body : Envelope) : ReadEvent
  deriving DecidableEq, Repr

/-- The message of lines 192 and 247. -/
def missingTableMessage : String :=
  "POI 테이블이 존재하지 않습니다. 엑셀 파일을 업로드해주세요."

/-- Source: `exports.getAllPoi` of the controller, with `indexModel.getAllPoi`,
which hands both callbacks to `psql.select('poi', 'getAllPoi', {})`. -/
def getAllPoi (store : ReadStore) : List ReadEvent :=
  .getAllPoi :: .select "poi" "getAllPoi" none ::
    match store.select "poi" "getAllPoi" none with
    | .ok data =>
      [.respond 200
        (buildOk (toString data.length ++ "개의 POI 데이터를 조회했습니다.") (.rows data)
          data.length)]
    | .fail error =>
      if error.code = some "42P01" then
        [.respond 200 (buildOk missingTableMessage (.rows []) 0)]
      else
        [.respond 500 (buildErr 500 "POI 데이터를 조회할 수 없습니다." .empty 0)]

/-- The double quote character of the template literal of line 232. -/
def doubleQuote : String := String.singleton (Char.ofNat 34)

/-- Source: `exports.searchPoi` of the controller, with
`indexModel.searchPoiByName`, which hands both callbacks to
`psql.select('poi', 'searchPoiByName', { searchText })`. The argument is
`req.query.searchText`, `none` when the parameter is absent. -/
def searchPoi (store : ReadStore) (searchText : Option String) : List ReadEvent :=
  match searchText with
  | none => [.respond 200 (buildOk "검색어를 입력해주세요." (.rows []) 0)]
  | some searchText =>
    if searchText == "" || jsTrim searchText == "" then
      [.respond 200 (buildOk "검색어를 입력해주세요." (.rows []) 0)]
    else
      let trimmedSearchText := jsTrim searchText
      .searchPoiByName trimmedSearchText ::
        .select "poi" "searchPoiByName" (some trimmedSearchText) ::
          match store.select "poi" "searchPoiByName" (some trimmedSearchText) with
          | .ok data =>
            [.respond 200
              (buildOk
                (doubleQuote ++ trimmedSearchText ++ doubleQuote ++ " 검색 결과: " ++
                  toString data.length ++ "개")
                (.rows data) data.length)]
          | .fail error =>
            if error.code = some "42P01" then
              [.respond 200 (buildOk missingTableMessage (.rows []) 0)]
            else
              [.respond 500 (buildErr 500 "POI 검색 중 오류가 발생했습니다." .empty 0)]

/-! ## Sample data SQL (`PoiEntity.js`, lines 73-91) -/

/-- The single quote character of the template literal of line 84. -/
def singleQuote : Char := Char.ofNat 39

/-- The value computed for one cell at line 84: a string is wrapped in single
quotes, any other value is kept. -/
def sampleCell (value : JSVal) : JSVal :=
  match value with
  | .str s => .str (String.singleton singleQuote ++ s ++ String.singleton singleQuote)
  | v => v

/-- The text that `Array.prototype.join` writes for one element: nothing for
`undefined` and `null`, the string form otherwise. -/
def joinElement (host : Host) : JSVal → String
  | .undefined => ""
  | .null => ""
  | .str s => s
  | .num n => host.numberToString n
  | .bool b => if b then "true" else "false"

/-- The tuple text of one sample row (lines 81-87). -/
def sampleTuple (host : Host) (columns : List String) (row : Row) : String :=
  "(" ++ jsJoin ", " (columns.map (fun col => joinElement host (sampleCell (row.get col)))) ++ ")"

/-- Source: `PoiEntity.getInsertSampleDataSQL()`, for an entity with the given
`tableName` and `sampleData` (`none` when the field is missing). `Object.keys` of
the first row are its labels in order. -/
def getInsertSampleDataSQL (host : Host) (tableName : String) (sampleData : Option (List Row)) :
    String :=
  match sampleData with
  | none => ""
  | some [] => ""
  | some (first :: rest) =>
    let columns := first.map Prod.fst
    let sql := "INSERT INTO " ++ tableName ++ " (" ++ jsJoin ", " columns ++ ") VALUES\n"
    let values := (first :: rest).map (sampleTuple host columns)
    sql ++ jsJoin ",\n" values ++ ";"

/-! ## Control flow of the batch replace engine -/

/-- A step of `processBatch`: the entry of the function with its start index and
the length of the slice, the `return onSuccess(totalCount)` of line 42 (empty
batch), the `onSuccess(totalCount)` of line 52 (after an insert), or an
observable event. -/
inductive Step where
  | enter (startIndex batchLength : Nat) : Step
  | successOnEmptyBatch : Step
  | successAfterInsert : Step
  | event (e : Event) : Step
  deriving DecidableEq, Repr

/-- The closure `processBatch(startIndex)` of lines 37-59 once more, recording
the steps taken along with the events. -/
def processBatchSteps (store : Store) (poiData : List Poi) (totalCount : Nat)
    (calls processedCount startIndex : Nat) : List Step :=
  let endIndex := min (startIndex + batchSize) totalCount
  let batch := jsSlice poiData startIndex endIndex
  Step.enter startIndex batch.length ::
    if h : batch.length = 0 then
      [Step.successOnEmptyBatch, Step.event (Event.onSuccess totalCount)]
    else
      Step.event (Event.insert batch) ::
        match store.insert calls batch with
        | .ok _ =>
          let processedCount := processedCount + batch.length
          if processedCount ≥ totalCount then
            [Step.successAfterInsert, Step.event (Event.onSuccess totalCount)]
          else
            processBatchSteps store poiData totalCount (calls + 1) processedCount endIndex
        | .fail err => [Step.event (Event.onError err)]
termination_by totalCount - startIndex
decreasing_by
  have hlen : ¬ (jsSlice poiData startIndex (min (startIndex + batchSize) totalCount)).length = 0 := h
  simp only [jsSlice, List.length_take, List.length_drop] at hlen
  omega

/-- The function `updatePoiData` once more, recording the steps of `processBatch`. -/
def updatePoiDataSteps (store : Store) (poiData : Option (List Poi)) : List Step :=
  match poiData with
  | none => [Step.event (Event.onError ⟨"POI 데이터가 비어있습니다.", none⟩)]
  | some l =>
    if l.length = 0 then [Step.event (Event.onError ⟨"POI 데이터가 비어있습니다.", none⟩)]
    else
      Step.event Event.delete ::
        match store.delete with
        | .ok _ => processBatchSteps store l l.length 0 0 0
        | .fail err => [Step.event (Event.onError err)]

/-- The events among the steps. -/
def eraseSteps (steps : List Step) : List Event :=
  steps.filterMap (fun s => match s with | .event e => some e | _ => none)

/-! ## Specification-side notions -/

/-- A number lies in the closed interval `[lo, hi]`. -/
def JSNum.within (lo hi : ℚ) : JSNum → Prop
  | .fin q => lo ≤ q ∧ q ≤ hi
  | _ => False

instance (lo hi : ℚ) (x : JSNum) : Decidable (x.within lo hi) := by
  cases x <;> unfold JSNum.within <;> infer_instance

/-- The rejection policy as worded in the specification (section 4.2): the title
is empty after trimming, or the latitude is exactly 0, or the longitude is exactly
0, or the latitude is outside `[-90, 90]`, or the longitude is outside `[-180, 180]`. -/
def specRejected (p : Poi) : Prop :=
  jsTrim p.title = "" ∨ p.latitude = .fin 0 ∨ p.longitude = .fin 0 ∨
  ¬ p.latitude.within (-90) 90 ∨ ¬ p.longitude.within (-180) 180

instance (p : Poi) : Decidable (specRejected p) := by
  unfold specRejected; infer_instance

/-- The reasons of a record as worded in the specification: those entries of the
fixed table whose condition holds, in table order. -/
def specReasons (p : Poi) : List String :=
  ([("title is empty", decide (jsTrim p.title = "")),
    ("latitude is invalid", decide (p.latitude = .fin 0)),
    ("longitude is invalid", decide (p.longitude = .fin 0)),
    ("coordinates are out of range",
      decide (¬ p.latitude.within (-90) 90 ∨ ¬ p.longitude.within (-180) 180))].filter
    (fun r => r.2)).map (fun r => r.1)

/-- The diagnostic text for a record paired with its 1-based row number. -/
def specDiagnostic (kp : Nat × Poi) : String :=
  "Row " ++ toString kp.1 ++ ": " ++ jsJoin ", " (specReasons kp.2)

/-- The rejected records of a list, in input order, each paired with its
1-based position in the list. -/
def rejectedRows (R : List Poi) : List (Nat × Poi) :=
  (R.enumFrom 1).filter (fun kp => decide (specRejected kp.2))

/-- Diagnostics produced by the loop from position `index` on. -/
def diagnosticsFrom : List Poi → Nat → List String
  | [], _ => []
  | poi :: rest, index =>
    if (collectIssues poi).length > 0 then
      rowMessage index (collectIssues poi) :: diagnosticsFrom rest (index + 1)
    else diagnosticsFrom rest (index + 1)

/-- Value of a decimal digit character. -/
def digitValue (c : Char) : Nat := c.toNat - 48

/-- Value of a list of decimal digit characters, most significant first. -/
def decimalValue (cs : List Char) : Nat := cs.foldl (fun acc c => 10 * acc + digitValue c) 0

/-- The errors passed to `onError`, in call order. -/
def errorCalls (trace : List Event) : List JSError :=
  trace.filterMap (fun e => match e with | .onError err => some err | _ => none)

/-- The number of calls of `psql.delete`. -/
def deleteCalls (trace : List Event) : Nat :=
  (trace.filter (fun e => match e with | .delete => true | _ => false)).length

/-- The first truthy value of a list of candidates, or the default. -/
def firstTruthy (candidates : List JSVal) (dflt : JSVal) : JSVal :=
  (candidates.find? JSVal.truthy).getD dflt

/-- The value selected for the title of a row. -/
def selectedTitle (row : Row) : JSVal :=
  firstTruthy [row.get "title", row.get "Title", row.get "TITLE"] (.str "")

/-- The value selected for the latitude of a row. -/
def selectedLatitude (row : Row) : JSVal :=
  firstTruthy [row.get "latitude", row.get "Latitude", row.get "LATITUDE"] (.num (.fin 0))

/-- The value selected for the longitude of a row. -/
def selectedLongitude (row : Row) : JSVal :=
  firstTruthy [row.get "longitude", row.get "Longitude", row.get "LONGITUDE"] (.num (.fin 0))

/-- The replace operation written as an explicit loop: one delete, then the
chunks of 1000 records one after the other, leaving at the first failure. -/
def updatePoiDataIterative (store : Store) (l : List Poi) : List Event :=
  Event.delete ::
    match store.delete with
    | .ok _ => iterativeInsert store l.length 0 (specChunks l)
    | .fail err => [Event.onError err]

/-- The store operations of a trace. -/
def storeOperations (trace : List Event) : List Event :=
  trace.filter (fun e => match e with | .delete => true | .insert _ => true | _ => false)

/-- The body of a standard SQL string literal, after the opening quote: characters
up to the closing quote, a doubled quote standing for one quote; `none` when the
literal is not closed or is followed by more text. -/
def readSqlBody : List Char → Option (List Char)
  | [] => none
  | [c] => if c = singleQuote then some [] else none
  | c :: d :: rest =>
    if c = singleQuote then
      if d = singleQuote then (readSqlBody rest).map (fun t => singleQuote :: t) else none
    else (readSqlBody (d :: rest)).map (fun t => c :: t)

/-- The text denoted by a standard SQL string literal, `none` when the characters
are not one well-formed literal. -/
def readSqlLiteral : List Char → Option (List Char)
  | [] => none
  | c :: rest => if c = singleQuote then readSqlBody rest else none

/-- A string value is properly quoted when its emitted form is a well-formed SQL
string literal that denotes the value. -/
def properlyQuoted (value emitted : String) : Prop :=
  readSqlLiteral emitted.data = some value.data

instance (value emitted : String) : Decidable (properlyQuoted value emitted) := by
  unfold properlyQuoted; infer_instance

/-- The response contract of the three handlers: the status is 200, 400 or 500,
the envelope carries the same status code, and an envelope that is not a success
repeats its code and its message in `errorCode` and `errorMessage`. -/
def responseContract (status : Nat) (body : Envelope) : Prop :=
  (status = 200 ∨ status = 400 ∨ status = 500) ∧ body.statusCode = status ∧
  (status ≠ 200 →
    body.errorCode = some body.statusCode ∧ body.errorMessage = some body.statusMessage)

/-! ## Example inputs -/

/-- A platform whose `parseFloat` always answers `NaN`. -/
def exampleHost : Host :=
  { parseFloat := fun _ => .nan, numberToString := fun _ => "0", randomUUID := fun _ => "uuid" }

/-- A well-formed record. -/
def examplePoi : Poi :=
  { id := "uuid", title := "Seoul", latitude := .fin 37, longitude := .fin 127, created_at := none }

/-- A record with a non-empty title, latitude 10 and longitude 91. -/
def longitude91Poi : Poi :=
  { id := "uuid", title := "A", latitude := .fin 10, longitude := .fin 91, created_at := none }

/-- A title of `n + 1` letters. -/
def longTitle (n : Nat) : String := ⟨List.replicate (n + 1) 'a'⟩

/-- The record parsed from `longTitleRow n`. -/
def longTitlePoi (id : String) (n : Nat) : Poi :=
  { id := id, title := longTitle n, latitude := .fin 10, longitude := .fin 10,
    created_at := none }

/-- A sheet row with a title of `n + 1` letters and numeric coordinates. -/
def longTitleRow (n : Nat) : Row :=
  [("title", .str (longTitle n)), ("latitude", .num (.fin 10)), ("longitude", .num (.fin 10))]

/-- A sheet row with latitude 0 under `latitude` and 5 under `Latitude`. -/
def zeroThenFiveRow : Row :=
  [("title", .str "A"), ("latitude", .num (.fin 0)), ("Latitude", .num (.fin 5)),
   ("longitude", .num (.fin 10))]

/-- A read store whose queries all fail with the given error. -/
def failingReadStore (err : JSError) : ReadStore := { select := fun _ _ _ => .fail err }

/-- A read store whose queries all succeed with no rows. -/
def emptyReadStore : ReadStore := { select := fun _ _ _ => .ok [] }

/-- The error raised by the store when the relation does not exist. -/
def missingTableError : JSError := { message := "relation does not exist", code := some "42P01" }

/-- A store error without the relation-not-found marker. -/
def connectionError : JSError := { message := "connection refused", code := some "ECONNREFUSED" }

/-- The title of the sample row used by the test suite of the entity. -/
def apostropheTitle : String := "Test's POI"

/-- The sample row `{ title: "Test's POI" }`. -/
def apostropheRow : Row := [("title", .str apostropheTitle)]

/-- An uploaded temporary file. -/
def exampleFile : UploadedFile := { path := "uploads/tmp1", originalname := "poi.xlsx" }

/-- An upload whose sheet has exactly the given rows. -/
def sheetEnv (rows : List Row) : UploadEnv :=
  { host := exampleHost, readSheet := fun _ => .ok rows }

/-- A sheet row without title and without coordinates. -/
def blankRow : Row := [("title", .str "")]

/-- A sheet row with a title and numeric coordinates. -/
def seoulRow : Row :=
  [("title", .str "Seoul"), ("latitude", .num (.fin 37)), ("longitude", .num (.fin 127))]

/-- A store whose delete succeeds and whose inserts all fail. -/
def failingInsertStore : Store :=
  { delete := .ok 0, insert := fun _ _ => .fail { message := "insert failed", code := none } }

/-- A store whose delete fails. -/
def failingDeleteStore : Store :=
  { delete := .fail { message := "delete failed", code := none }, insert := fun _ _ => .ok 1 }

/-- A store in which every operation succeeds, with arbitrary row counts. -/
def exampleStore : Store := { delete := .ok 7, insert := fun k _ => .ok (k + 3) }

/-! # Theorems -/

/-! ## The validator loop -/

theorem validateLoop_eq (l : List Poi) : ∀ (index : Nat) (acc : ValidationResult),
    validateLoop l index acc =
      { validPois := acc.validPois ++ l.filter (fun p => (collectIssues p).length == 0),
        errors := acc.errors ++ diagnosticsFrom l index } := by
  induction l with
  | nil => intro index acc; simp [validateLoop, diagnosticsFrom]
  | cons p rest ih =>
    intro index acc
    rw [validateLoop, ih]
    by_cases h : (collectIssues p).length > 0
    · have h0 : ¬ (collectIssues p).length = 0 := by omega
      simp [validateStep, diagnosticsFrom, h, h0]
    · have h0 : (collectIssues p).length = 0 := by omega
      simp [validateStep, diagnosticsFrom, h0]

theorem validatePoiList_eq (l : List Poi) :
    validatePoiList l =
      { validPois := l.filter (fun p => (collectIssues p).length == 0),
        errors := diagnosticsFrom l 0 } := by
  simp [validatePoiList, validateLoop_eq]

theorem le_fin_iff (x : JSNum) (a b : ℚ) :
    (JSNum.ge x (.fin a) && JSNum.le x (.fin b)) = true ↔ x.within a b := by
  cases x <;> simp [JSNum.ge, JSNum.le, JSNum.within]

theorem strictEq_fin_iff (x : JSNum) (a : ℚ) :
    JSNum.strictEq x (.fin a) = true ↔ x = .fin a := by
  cases x <;> simp [JSNum.strictEq]

theorem isValidCoordinate_iff (lat lng : JSNum) :
    isValidCoordinate lat lng = true ↔ lat.within (-90) 90 ∧ lng.within (-180) 180 := by
  unfold isValidCoordinate
  rw [Bool.and_assoc, Bool.and_eq_true, le_fin_iff, le_fin_iff]

theorem jsTrim_empty : jsTrim "" = "" := by decide

theorem titleTest_iff (t : String) : (t == "" || jsTrim t == "") = true ↔ jsTrim t = "" := by
  constructor
  · intro h
    simp at h
    rcases h with h | h
    · subst h; exact jsTrim_empty
    · exact h
  · intro h; simp [h]

theorem titleTest_eq (t : String) :
    (t == "" || jsTrim t == "") = decide (jsTrim t = "") := by
  rw [Bool.eq_iff_iff, titleTest_iff]; simp

theorem strictEq_fin_eq (x : JSNum) (a : ℚ) :
    JSNum.strictEq x (.fin a) = decide (x = .fin a) := by
  rw [Bool.eq_iff_iff, strictEq_fin_iff]; simp

theorem not_isValidCoordinate_eq (lat lng : JSNum) :
    (!isValidCoordinate lat lng) =
      decide (¬ lat.within (-90) 90 ∨ ¬ lng.within (-180) 180) := by
  rw [Bool.eq_iff_iff]
  simp only [Bool.not_eq_true', decide_eq_true_eq, ← Bool.not_eq_true, isValidCoordinate_iff]
  tauto

theorem collectIssues_eq_specReasons (p : Poi) : collectIssues p = specReasons p := by
  unfold collectIssues specReasons
  rw [titleTest_eq, strictEq_fin_eq, strictEq_fin_eq, not_isValidCoordinate_eq]
  cases decide (jsTrim p.title = "") <;> cases decide (p.latitude = .fin 0) <;>
    cases decide (p.longitude = .fin 0) <;>
    cases decide (¬ p.latitude.within (-90) 90 ∨ ¬ p.longitude.within (-180) 180) <;> rfl

theorem collectIssues_length_pos_iff (p : Poi) :
    (collectIssues p).length > 0 ↔ specRejected p := by
  rw [collectIssues_eq_specReasons]
  unfold specReasons specRejected
  by_cases c1 : jsTrim p.title = "" <;> by_cases c2 : p.latitude = .fin 0 <;>
    by_cases c3 : p.longitude = .fin 0 <;>
    by_cases c4 : (¬ p.latitude.within (-90) 90 ∨ ¬ p.longitude.within (-180) 180) <;>
    simp [c1, c2, c3, c4]

theorem diagnosticsFrom_eq (l : List Poi) : ∀ index : Nat,
    diagnosticsFrom l index =
      ((l.enumFrom (index + 1)).filter (fun kp => decide (specRejected kp.2))).map
        specDiagnostic := by
  induction l with
  | nil => intro index; simp [diagnosticsFrom]
  | cons p rest ih =>
    intro index
    rw [diagnosticsFrom, ih, List.enumFrom_cons, List.filter_cons]
    by_cases h : specRejected p
    · have h1 := (collectIssues_length_pos_iff p).2 h
      have h2 : ¬ specReasons p = [] := by
        rw [← collectIssues_eq_specReasons]; intro c; rw [c] at h1; simp at h1
      simp [h, h1, h2, specDiagnostic, rowMessage, collectIssues_eq_specReasons]
    · have h1 : ¬ (collectIssues p).length > 0 := fun c => h ((collectIssues_length_pos_iff p).1 c)
      simp [h, h1]

theorem errors_eq (R : List Poi) :
    (validatePoiList R).errors = (rejectedRows R).map specDiagnostic := by
  rw [validatePoiList_eq, diagnosticsFrom_eq]; rfl

theorem validPois_eq (R : List Poi) :
    (validatePoiList R).validPois = R.filter (fun p => decide (¬ specRejected p)) := by
  rw [validatePoiList_eq]
  show List.filter _ R = List.filter _ R
  congr 1
  funext p
  rw [Bool.eq_iff_iff]
  have h := collectIssues_length_pos_iff p
  simp only [beq_iff_eq, decide_eq_true_eq, ← h]
  omega

theorem digitValue_digitChar (m : Nat) (h : m < 10) : digitValue (Nat.digitChar m) = m := by
  interval_cases m <;> rfl

theorem digitChar_ne_colon (m : Nat) (h : m < 10) : Nat.digitChar m ≠ ':' := by
  interval_cases m <;> decide

theorem toDigitsCore_append (fuel : Nat) : ∀ (n : Nat) (ds : List Char),
    Nat.toDigitsCore 10 fuel n ds = Nat.toDigitsCore 10 fuel n [] ++ ds := by
  induction fuel with
  | zero => intro n ds; simp [Nat.toDigitsCore]
  | succ f ih =>
    intro n ds
    simp only [Nat.toDigitsCore]
    split
    · simp
    · rw [ih (n / 10) (Nat.digitChar (n % 10) :: ds), ih (n / 10) [Nat.digitChar (n % 10)]]
      simp

theorem decimalValue_append_singleton (cs : List Char) (c : Char) :
    decimalValue (cs ++ [c]) = 10 * decimalValue cs + digitValue c := by
  simp [decimalValue, List.foldl_append]

theorem decimalValue_toDigitsCore (fuel : Nat) : ∀ n : Nat, n < fuel →
    decimalValue (Nat.toDigitsCore 10 fuel n []) = n := by
  induction fuel with
  | zero => intro n h; omega
  | succ f ih =>
    intro n h
    simp only [Nat.toDigitsCore]
    split
    · rename_i h0
      have : n < 10 := by omega
      simp [decimalValue, digitValue_digitChar (n % 10) (Nat.mod_lt _ (by decide))]
      omega
    · rename_i h0
      rw [toDigitsCore_append, decimalValue_append_singleton, ih (n / 10) (by omega),
        digitValue_digitChar (n % 10) (Nat.mod_lt _ (by decide))]
      omega

theorem toDigitsCore_no_colon (fuel : Nat) : ∀ (n : Nat) (ds : List Char),
    ':' ∉ ds → ':' ∉ Nat.toDigitsCore 10 fuel n ds := by
  induction fuel with
  | zero => intro n ds h; simpa [Nat.toDigitsCore] using h
  | succ f ih =>
    intro n ds h
    have hd : ':' ∉ Nat.digitChar (n % 10) :: ds := by
      intro c
      rcases List.mem_cons.1 c with c | c
      · exact digitChar_ne_colon (n % 10) (Nat.mod_lt _ (by decide)) c.symm
      · exact h c
    simp only [Nat.toDigitsCore]
    split
    · exact hd
    · exact ih _ _ hd

theorem toString_nat_data (n : Nat) : (toString n).data = Nat.toDigits 10 n := rfl

theorem toString_nat_no_colon (n : Nat) : ':' ∉ (toString n).data := by
  rw [toString_nat_data]; exact toDigitsCore_no_colon _ _ _ (by simp)

theorem toString_nat_injective (a b : Nat) (h : (toString a).data = (toString b).data) :
    a = b := by
  rw [toString_nat_data, toString_nat_data] at h
  have ha := decimalValue_toDigitsCore (a + 1) a (by omega)
  have hb := decimalValue_toDigitsCore (b + 1) b (by omega)
  unfold Nat.toDigits at h
  rw [h] at ha
  omega

theorem append_sep_cancel {c : Char} : ∀ (a b x y : List Char),
    c ∉ a → c ∉ b → a ++ c :: x = b ++ c :: y → a = b := by
  intro a
  induction a with
  | nil =>
    intro b x y _ hb h
    cases b with
    | nil => rfl
    | cons d b =>
      simp only [List.nil_append, List.cons_append, List.cons.injEq] at h
      exact absurd (List.mem_cons.2 (Or.inl h.1)) hb
  | cons e a ih =>
    intro b x y ha hb h
    cases b with
    | nil =>
      simp only [List.nil_append, List.cons_append, List.cons.injEq] at h
      exact absurd (List.mem_cons.2 (Or.inl h.1.symm)) ha
    | cons d b =>
      simp only [List.cons_append, List.cons.injEq] at h
      rw [h.1, ih b x y (fun c => ha (List.mem_cons_of_mem _ c))
        (fun c => hb (List.mem_cons_of_mem _ c)) h.2]

/-- The row number can be read back from a diagnostic: two texts of the form
`Row k: ...` that coincide have the same `k`. -/
theorem rowPrefix_injective (a b : Nat) (x y : String)
    (h : "Row " ++ toString a ++ ": " ++ x = "Row " ++ toString b ++ ": " ++ y) : a = b := by
  have h1 := congrArg String.data h
  simp only [String.data_append, List.append_assoc] at h1
  have h2 := List.append_cancel_left h1
  apply toString_nat_injective
  exact append_sep_cancel _ _ _ _ (toString_nat_no_colon a) (toString_nat_no_colon b) h2

/-! ## The batch replace engine -/

theorem processBatch_unfold (store : Store) (poiData : List Poi) (totalCount : Nat)
    (calls processedCount startIndex : Nat) :
    processBatch store poiData totalCount calls processedCount startIndex =
      if (jsSlice poiData startIndex (min (startIndex + batchSize) totalCount)).length = 0 then
        [Event.onSuccess totalCount]
      else
        Event.insert (jsSlice poiData startIndex (min (startIndex + batchSize) totalCount)) ::
          match store.insert calls
              (jsSlice poiData startIndex (min (startIndex + batchSize) totalCount)) with
          | .ok _ =>
            if processedCount +
                (jsSlice poiData startIndex (min (startIndex + batchSize) totalCount)).length
                ≥ totalCount then
              [Event.onSuccess totalCount]
            else
              processBatch store poiData totalCount (calls + 1)
                (processedCount +
                  (jsSlice poiData startIndex (min (startIndex + batchSize) totalCount)).length)
                (min (startIndex + batchSize) totalCount)
          | .fail err => [Event.onError err] := by
  rw [processBatch]
  simp only [dite_eq_ite]

theorem jsSlice_eq_chunkAt (l : List Poi) (c : Nat) :
    jsSlice l (1000 * c) (min (1000 * c + batchSize) l.length) = chunkAt l c := by
  unfold jsSlice chunkAt batchSize
  apply List.ext_getElem
  · simp only [List.length_take, List.length_drop]; omega
  · intro i h1 h2
    simp

theorem processBatch_eq_iterativeInsert (store : Store) (l : List Poi) (m : Nat) :
    ∀ c : Nat, c + m = chunkCount l.length → 1000 * c < l.length →
      processBatch store l l.length c (1000 * c) (1000 * c) =
        iterativeInsert store l.length c ((List.range' c m).map (chunkAt l)) := by
  induction m with
  | zero => intro c h1 h2; unfold chunkCount at h1; omega
  | succ m ih =>
    intro c h1 h2
    have hlen : (chunkAt l c).length = min 1000 (l.length - 1000 * c) := by
      simp [chunkAt, List.length_take, List.length_drop]
    rw [processBatch_unfold, jsSlice_eq_chunkAt]
    have hne : ¬ (chunkAt l c).length = 0 := by rw [hlen]; omega
    rw [if_neg hne, List.range'_succ, List.map_cons, iterativeInsert]
    congr 1
    cases store.insert c (chunkAt l c) with
    | fail err => rfl
    | ok n =>
      simp only []
      by_cases hlast : 1000 * c + (chunkAt l c).length ≥ l.length
      · rw [if_pos hlast]
        have hm : m = 0 := by unfold chunkCount at h1; rw [hlen] at hlast; omega
        subst hm
        simp [iterativeInsert]
      · rw [if_neg hlast]
        rw [hlen] at hlast
        have e1 : 1000 * c + (chunkAt l c).length = 1000 * (c + 1) := by rw [hlen]; omega
        have e2 : min (1000 * c + batchSize) l.length = 1000 * (c + 1) := by
          unfold batchSize; omega
        rw [e1, e2]
        exact ih (c + 1) (by omega) (by omega)

theorem updatePoiData_eq (store : Store) (l : List Poi) (hl : l ≠ []) :
    updatePoiData store (some l) =
      Event.delete ::
        match store.delete with
        | .ok _ => iterativeInsert store l.length 0 (specChunks l)
        | .fail err => [Event.onError err] := by
  have hpos : 0 < l.length := List.length_pos.2 hl
  have h := processBatch_eq_iterativeInsert store l (chunkCount l.length) 0 (by simp) (by omega)
  simp only [updatePoiData, Nat.mul_zero] at h ⊢
  rw [if_neg (by omega), h, specChunks, List.range_eq_range']

theorem iterativeInsert_success (store : Store) (N : Nat) (chunks : List (List Poi)) :
    ∀ k : Nat, (∀ i (h : i < chunks.length), ∃ n, store.insert (k + i) chunks[i] = .ok n) →
      iterativeInsert store N k chunks = chunks.map Event.insert ++ [Event.onSuccess N] := by
  induction chunks with
  | nil => intro k _; rfl
  | cons c cs ih =>
    intro k h
    obtain ⟨n, hn⟩ := h 0 (by simp)
    simp only [Nat.add_zero, List.getElem_cons_zero] at hn
    rw [iterativeInsert, hn]
    simp only [List.map_cons, List.cons_append, List.cons.injEq, true_and]
    apply ih
    intro i hi
    have := h (i + 1) (by simpa using hi)
    simpa [Nat.add_assoc, Nat.add_comm 1 i] using this

theorem updatePoiData_success (store : Store) (l : List Poi) (hl : l ≠ [])
    (hs : store.succeedsOn l) :
    updatePoiData store (some l) =
      Event.delete :: ((specChunks l).map Event.insert ++ [Event.onSuccess l.length]) := by
  obtain ⟨⟨d, hd⟩, hi⟩ := hs
  rw [updatePoiData_eq store l hl, hd]
  simp only []
  rw [iterativeInsert_success]
  intro i h
  simp only [specChunks, List.length_map, List.length_range] at h
  simp only [specChunks, List.getElem_map, List.getElem_range, Nat.zero_add]
  exact hi i h

theorem flatten_chunks (l : List Poi) (m : Nat) : ∀ c : Nat,
    ((List.range' c m).map (chunkAt l)).flatten = (l.drop (1000 * c)).take (1000 * m) := by
  induction m with
  | zero => intro c; simp
  | succ m ih =>
    intro c
    rw [List.range'_succ, List.map_cons, List.flatten_cons, ih (c + 1), chunkAt]
    have e : l.drop (1000 * (c + 1)) = (l.drop (1000 * c)).drop 1000 := by
      rw [List.drop_drop, Nat.mul_succ]
    rw [e, show 1000 * (m + 1) = 1000 + 1000 * m by omega, List.take_add]

theorem specChunks_flatten (l : List Poi) : (specChunks l).flatten = l := by
  rw [specChunks, List.range_eq_range', flatten_chunks]
  simp only [Nat.mul_zero, List.drop_zero]
  apply List.take_of_length_le
  unfold chunkCount; omega

theorem specChunks_length (l : List Poi) : (specChunks l).length = chunkCount l.length := by
  simp [specChunks]

theorem specChunks_getElem_length (l : List Poi) (i : Nat) (h : i < (specChunks l).length) :
    (specChunks l)[i].length = min 1000 (l.length - 1000 * i) := by
  simp [specChunks, chunkAt, List.length_take, List.length_drop]

theorem insertCalls_success_trace (chunks : List (List Poi)) (N : Nat) :
    insertCalls (Event.delete :: (chunks.map Event.insert ++ [Event.onSuccess N])) = chunks := by
  induction chunks with
  | nil => simp [insertCalls]
  | cons c cs ih =>
    simp only [insertCalls, List.map_cons, List.cons_append] at ih ⊢
    simp only [List.filterMap_cons] at ih ⊢
    rw [ih]

theorem successCalls_success_trace (chunks : List (List Poi)) (N : Nat) :
    successCalls (Event.delete :: (chunks.map Event.insert ++ [Event.onSuccess N])) = [N] := by
  induction chunks with
  | nil => simp [successCalls]
  | cons c cs ih =>
    simp only [successCalls, List.map_cons, List.cons_append] at ih ⊢
    simp only [List.filterMap_cons] at ih ⊢
    rw [ih]

/-! ## Claims about the record validator -/

theorem mem_rejectedRows (R : List Poi) (k : Nat) (p : Poi) :
    (k, p) ∈ rejectedRows R ↔ (k, p) ∈ R.enumFrom 1 ∧ specRejected p := by
  simp [rejectedRows, List.mem_filter]

theorem enumFrom_functional (R : List Poi) (k : Nat) (p q : Poi)
    (hp : (k, p) ∈ R.enumFrom 1) (hq : (k, q) ∈ R.enumFrom 1) : p = q := by
  rw [List.mk_mem_enumFrom_iff_le_and_getElem?_sub] at hp hq
  have h := hp.2.symm.trans hq.2
  exact Option.some.inj h

theorem rowDiagnostic_mem_iff (R : List Poi) (k : Nat) (p : Poi)
    (hkp : (k, p) ∈ R.enumFrom 1) :
    (∃ d ∈ (validatePoiList R).errors, ∃ reasons : String,
        d = "Row " ++ toString k ++ ": " ++ reasons) ↔ specRejected p := by
  constructor
  · rintro ⟨d, hd, reasons, rfl⟩
    rw [errors_eq] at hd
    obtain ⟨⟨k2, p2⟩, hmem, heq⟩ := List.mem_map.1 hd
    have hk : k2 = k := rowPrefix_injective k2 k _ _ heq
    subst hk
    rw [mem_rejectedRows] at hmem
    rw [enumFrom_functional R k2 p p2 hkp hmem.1]
    exact hmem.2
  · intro hr
    refine ⟨specDiagnostic (k, p), ?_, jsJoin ", " (specReasons p), rfl⟩
    rw [errors_eq]
    exact List.mem_map.2 ⟨(k, p), (mem_rejectedRows R k p).2 ⟨hkp, hr⟩, rfl⟩

theorem mem_validPois_iff (R : List Poi) (p : Poi) :
    p ∈ (validatePoiList R).validPois ↔ p ∈ R ∧ ¬ specRejected p := by
  rw [validPois_eq, List.mem_filter]
  simp

/-- C1: `validatePoiList` rejects a record exactly when the policy of the
specification holds for it: a record of the input is placed in `validPois` if and
only if none of the five conditions holds, and a diagnostic `Row k: ...` is
emitted for the record at row `k` if and only if at least one of them holds. -/
theorem C1_rejected_iff_policy (R : List Poi) :
    (∀ p, p ∈ (validatePoiList R).validPois ↔ p ∈ R ∧ ¬ specRejected p) ∧
    (∀ k p, (k, p) ∈ R.enumFrom 1 →
      ((∃ d ∈ (validatePoiList R).errors, ∃ reasons : String,
          d = "Row " ++ toString k ++ ": " ++ reasons) ↔
        (jsTrim p.title = "" ∨ p.latitude = .fin 0 ∨ p.longitude = .fin 0 ∨
          ¬ p.latitude.within (-90) 90 ∨ ¬ p.longitude.within (-180) 180))) :=
  ⟨mem_validPois_iff R, fun k p h => rowDiagnostic_mem_iff R k p h⟩

theorem validateStep_cases (acc : ValidationResult) (poi : Poi) (index : Nat) :
    ((validateStep acc poi index).validPois = acc.validPois ++ [poi] ∧
      (validateStep acc poi index).errors = acc.errors) ∨
    ((validateStep acc poi index).validPois = acc.validPois ∧
      ∃ d, (validateStep acc poi index).errors = acc.errors ++ [d]) := by
  unfold validateStep
  by_cases h : (collectIssues poi).length > 0
  · right; simp [h]
  · left; simp [h]

theorem filter_length_add_diagnosticsFrom_length (l : List Poi) : ∀ index : Nat,
    (l.filter (fun p => (collectIssues p).length == 0)).length +
      (diagnosticsFrom l index).length = l.length := by
  induction l with
  | nil => intro index; simp [diagnosticsFrom]
  | cons p rest ih =>
    intro index
    have h := ih (index + 1)
    by_cases c : (collectIssues p).length > 0
    · have c0 : ((collectIssues p).length == 0) = false := by
        rw [beq_eq_false_iff_ne]; omega
      rw [diagnosticsFrom, if_pos c, List.filter_cons, c0]
      simp only [Bool.false_eq_true, if_false, List.length_cons]
      omega
    · have c0 : ((collectIssues p).length == 0) = true := by
        rw [beq_iff_eq]; omega
      rw [diagnosticsFrom, if_neg c, List.filter_cons, c0]
      simp only [if_true, List.length_cons]
      omega

/-- C2: the accepted records and the diagnostics of `validatePoiList` together
number exactly the input records; each call of the loop body appends exactly one
element to exactly one of the two outputs, and for each input row exactly one of
"the record is in `validPois`" and "a diagnostic `Row k: ...` exists" holds. -/
theorem C2_accepted_plus_rejected (R : List Poi) :
    (validatePoiList R).validPois.length + (validatePoiList R).errors.length = R.length ∧
    (∀ (acc : ValidationResult) (poi : Poi) (index : Nat),
      ((validateStep acc poi index).validPois = acc.validPois ++ [poi] ∧
        (validateStep acc poi index).errors = acc.errors) ∨
      ((validateStep acc poi index).validPois = acc.validPois ∧
        ∃ d, (validateStep acc poi index).errors = acc.errors ++ [d])) ∧
    (∀ k p, (k, p) ∈ R.enumFrom 1 →
      Xor' (p ∈ (validatePoiList R).validPois)
        (∃ d ∈ (validatePoiList R).errors, ∃ reasons : String,
          d = "Row " ++ toString k ++ ": " ++ reasons)) := by
  refine ⟨?_, validateStep_cases, ?_⟩
  · rw [validatePoiList_eq]
    exact filter_length_add_diagnosticsFrom_length R 0
  · intro k p hkp
    rw [rowDiagnostic_mem_iff R k p hkp, mem_validPois_iff]
    have hp : p ∈ R := List.snd_mem_of_mem_enumFrom hkp
    by_cases hr : specRejected p
    · exact Or.inr ⟨hr, fun c => c.2 hr⟩
    · exact Or.inl ⟨⟨hp, hr⟩, hr⟩

/-- C3: the diagnostics of `validatePoiList R` correspond one to one, in order, to
the rejected records of `R`; the i-th diagnostic has the form `Row k: ...` with
`k` the 1-based position in `R` of the i-th rejected record, so the row numbers
are strictly increasing and lie between 1 and the length of `R`. -/
theorem C3_row_numbers (R : List Poi) :
    List.Forall₂ (fun (d : String) (kp : Nat × Poi) =>
        ∃ reasons : String, d = "Row " ++ toString kp.1 ++ ": " ++ reasons)
      (validatePoiList R).errors (rejectedRows R) ∧
    ((rejectedRows R).map Prod.fst).Pairwise (fun a b => a < b) ∧
    (∀ kp ∈ rejectedRows R,
      1 ≤ kp.1 ∧ kp.1 ≤ R.length ∧ R[kp.1 - 1]? = some kp.2 ∧ specRejected kp.2) := by
  refine ⟨?_, ?_, ?_⟩
  · rw [errors_eq, List.forall₂_map_left_iff]
    apply List.forall₂_same.2
    intro kp _
    exact ⟨jsJoin ", " (specReasons kp.2), rfl⟩
  · have hsub : ((rejectedRows R).map Prod.fst).Sublist ((R.enumFrom 1).map Prod.fst) :=
      (List.filter_sublist _).map _
    rw [List.enumFrom_map_fst] at hsub
    exact List.Pairwise.sublist hsub (List.pairwise_lt_range' 1 R.length)
  · rintro ⟨k, p⟩ hkp
    rw [mem_rejectedRows, List.mk_mem_enumFrom_iff_le_and_getElem?_sub] at hkp
    obtain ⟨⟨h1, h2⟩, h3⟩ := hkp
    have hlt : k - 1 < R.length := by
      by_contra c
      rw [List.getElem?_eq_none (by omega)] at h2
      exact Option.noConfusion h2
    exact ⟨h1, by omega, h2, h3⟩

/-- C4: `validPois` is the input list filtered by the acceptance predicate (the
negation of the rejection policy): the non-rejected records, unchanged and in
their original relative order. -/
theorem C4_validPois_is_filter (R : List Poi) :
    (validatePoiList R).validPois = R.filter (fun p => decide (¬ specRejected p)) ∧
    (validatePoiList R).validPois.Sublist R := by
  rw [validPois_eq]
  exact ⟨rfl, List.filter_sublist R⟩

/-- C5: every diagnostic lists all the reasons that apply to its record: the text
after `Row k: ` is the `, `-joined list of those of the four reasons whose
condition holds, in the fixed order; a record with empty title, latitude 0 and
longitude 0 carries exactly the first three reasons. -/
theorem C5_all_reasons_recorded (R : List Poi) :
    (validatePoiList R).errors =
      (rejectedRows R).map (fun kp =>
        "Row " ++ toString kp.1 ++ ": " ++ ", ".intercalate (specReasons kp.2)) ∧
    (∀ p : Poi, collectIssues p = specReasons p) ∧
    (∀ p : Poi, p.title = "" → p.latitude = .fin 0 → p.longitude = .fin 0 →
      (validatePoiList [p]).errors =
        ["Row 1: title is empty, latitude is invalid, longitude is invalid"]) := by
  refine ⟨errors_eq R, collectIssues_eq_specReasons, ?_⟩
  intro p h1 h2 h3
  rw [errors_eq]
  have hr : specRejected p := Or.inr (Or.inl h2)
  have hs : specReasons p =
      ["title is empty", "latitude is invalid", "longitude is invalid"] := by
    unfold specReasons
    rw [h1, h2, h3]
    decide
  simp only [rejectedRows, List.enumFrom_cons, List.enumFrom_nil, List.filter_cons, hr,
    decide_True, if_true, List.filter_nil, List.map_cons, List.map_nil, specDiagnostic, hs]
  decide

/-- C6 (as stated, refuted): a record with a non-empty title, latitude 10 and
longitude 91 is accepted by `validatePoiList` and produces no diagnostic. -/
theorem C6_longitude_91_accepted :
    longitude91Poi.longitude = .fin 91 ∧
    validatePoiList [longitude91Poi] = { validPois := [longitude91Poi], errors := [] } := by
  decide

theorem specDiagnostic_mem_errors (R : List Poi) (k : Nat) (p : Poi)
    (hkp : (k, p) ∈ R.enumFrom 1) (hr : specRejected p) :
    "Row " ++ toString k ++ ": " ++ jsJoin ", " (specReasons p) ∈ (validatePoiList R).errors := by
  rw [errors_eq]
  exact List.mem_map.2 ⟨(k, p), (mem_rejectedRows R k p).2 ⟨hkp, hr⟩, rfl⟩

/-- C6 (amended): for the record `p` at row `k` of the input, an empty title
gives the diagnostic of row `k` with the reason `title is empty`, latitude 0 gives
it with `latitude is invalid`, longitude 0 gives it with `longitude is invalid`,
and a longitude outside `[-180, 180]` gives it with `coordinates are out of range`;
a record whose longitude is 91 never carries `longitude is invalid` and is accepted
exactly when its title is not blank and its latitude is non-zero and in `[-90, 90]`. -/
theorem C6_field_reasons (R : List Poi) (k : Nat) (p : Poi) (hkp : (k, p) ∈ R.enumFrom 1) :
    (p.title = "" →
      "title is empty" ∈ specReasons p ∧
      "Row " ++ toString k ++ ": " ++ jsJoin ", " (specReasons p) ∈ (validatePoiList R).errors) ∧
    (p.latitude = .fin 0 →
      "latitude is invalid" ∈ specReasons p ∧
      "Row " ++ toString k ++ ": " ++ jsJoin ", " (specReasons p) ∈ (validatePoiList R).errors) ∧
    (p.longitude = .fin 0 →
      "longitude is invalid" ∈ specReasons p ∧
      "Row " ++ toString k ++ ": " ++ jsJoin ", " (specReasons p) ∈ (validatePoiList R).errors) ∧
    (¬ p.longitude.within (-180) 180 →
      "coordinates are out of range" ∈ specReasons p ∧
      "Row " ++ toString k ++ ": " ++ jsJoin ", " (specReasons p) ∈ (validatePoiList R).errors) ∧
    (p.longitude = .fin 91 →
      "longitude is invalid" ∉ specReasons p ∧
      (p ∈ (validatePoiList R).validPois ↔
        jsTrim p.title ≠ "" ∧ p.latitude ≠ .fin 0 ∧ p.latitude.within (-90) 90)) := by
  refine ⟨?_, ?_, ?_, ?_, ?_⟩
  · intro h
    have ht : jsTrim p.title = "" := by rw [h]; exact jsTrim_empty
    exact ⟨by simp [specReasons, ht], specDiagnostic_mem_errors R k p hkp (Or.inl ht)⟩
  · intro h
    exact ⟨by simp [specReasons, h], specDiagnostic_mem_errors R k p hkp (Or.inr (Or.inl h))⟩
  · intro h
    exact ⟨by simp [specReasons, h],
      specDiagnostic_mem_errors R k p hkp (Or.inr (Or.inr (Or.inl h)))⟩
  · intro h
    exact ⟨by simp [specReasons, h],
      specDiagnostic_mem_errors R k p hkp (Or.inr (Or.inr (Or.inr (Or.inr h))))⟩
  · intro h
    have hw : p.longitude.within (-180) 180 := by rw [h]; simp [JSNum.within]; norm_num
    have hne : p.longitude ≠ .fin 0 := by rw [h]; intro c; injection c with c; norm_num at c
    refine ⟨by simp [specReasons, hne], ?_⟩
    rw [mem_validPois_iff]
    have hp : p ∈ R := List.snd_mem_of_mem_enumFrom hkp
    unfold specRejected
    constructor
    · rintro ⟨_, hn⟩
      exact ⟨fun c => hn (Or.inl c), fun c => hn (Or.inr (Or.inl c)),
        by by_contra c; exact hn (Or.inr (Or.inr (Or.inr (Or.inl c))))⟩
    · rintro ⟨h1, h2, h3⟩
      refine ⟨hp, ?_⟩
      rintro (c | c | c | c | c)
      · exact h1 c
      · exact h2 c
      · exact hne c
      · exact c h3
      · exact c hw

/-- Witness of C6 (amended) at the one-record list holding `longitude91Poi`. -/
theorem C6_field_reasons_witness :
    (1, longitude91Poi) ∈ [longitude91Poi].enumFrom 1 ∧
    "longitude is invalid" ∉ specReasons longitude91Poi ∧
    (longitude91Poi ∈ (validatePoiList [longitude91Poi]).validPois ↔
      jsTrim longitude91Poi.title ≠ "" ∧ longitude91Poi.latitude ≠ .fin 0 ∧
        longitude91Poi.latitude.within (-90) 90) :=
  ⟨by simp, (C6_field_reasons [longitude91Poi] 1 longitude91Poi (by simp)).2.2.2.2 rfl⟩

/-! ## Claims about the accepted records of an upload -/

theorem trimChars_replicate (n : Nat) :
    trimChars (List.replicate (n + 1) 'a') = List.replicate (n + 1) 'a' := by
  have h : isJSWhiteSpace 'a' = false := by decide
  unfold trimChars
  rw [List.replicate_succ, List.dropWhile_cons, h]
  simp only [Bool.false_eq_true, if_false]
  rw [← List.replicate_succ, List.reverse_replicate, List.replicate_succ, List.dropWhile_cons, h]
  simp only [Bool.false_eq_true, if_false]
  rw [← List.replicate_succ, List.reverse_replicate]

theorem longTitle_length (n : Nat) : (longTitle n).length = n + 1 := by
  simp [longTitle, String.length]

theorem jsTrim_longTitle (n : Nat) : jsTrim (longTitle n) = longTitle n := by
  simp [jsTrim, longTitle, trimChars_replicate]

theorem longTitle_ne_empty (n : Nat) : ¬ longTitle n = "" := by
  intro c
  have h := longTitle_length n
  rw [c] at h
  simp at h

theorem toPoiFromExcelRow_longTitleRow (host : Host) (call n : Nat) :
    toPoiFromExcelRow host call (longTitleRow n) = longTitlePoi (host.randomUUID call) n := by
  have e1 : Row.get (longTitleRow n) "title" = .str (longTitle n) := by
    simp [Row.get, longTitleRow, List.lookup]
  have e2 : Row.get (longTitleRow n) "latitude" = .num (.fin 10) := by
    simp [Row.get, longTitleRow, List.lookup]
  have e3 : Row.get (longTitleRow n) "longitude" = .num (.fin 10) := by
    simp [Row.get, longTitleRow, List.lookup]
  simp [toPoiFromExcelRow, e1, e2, e3, jsOr, JSVal.truthy, longTitle_ne_empty, jsToString,
    parseCoordinate, jsTrim_longTitle, longTitlePoi]

theorem longTitlePoi_accepted (id : String) (n : Nat) : ¬ specRejected (longTitlePoi id n) := by
  unfold specRejected
  simp [longTitlePoi, jsTrim_longTitle, longTitle_ne_empty, JSNum.within]
  norm_num

theorem uploadAccepted_longTitleRow (host : Host) (n : Nat) :
    uploadAccepted host [longTitleRow n] = [longTitlePoi (host.randomUUID 0) n] := by
  simp only [uploadAccepted, List.enum, List.enumFrom_cons, List.enumFrom_nil, List.map_cons,
    List.map_nil, toPoiFromExcelRow_longTitleRow, validPois_eq, List.filter_cons,
    longTitlePoi_accepted, not_false_eq_true, decide_True, if_true, List.filter_nil]

/-- C7 (as stated, refuted): the row with a 501-letter title and coordinates
(10, 10) is accepted by the upload pipeline and handed on with its title intact. -/
theorem C7_title_of_501_accepted :
    uploadAccepted exampleHost [longTitleRow 500] = [longTitlePoi "uuid" 500] ∧
    (longTitlePoi "uuid" 500).title.length = 501 :=
  ⟨uploadAccepted_longTitleRow exampleHost 500, longTitle_length 500⟩

theorem mem_uploadAccepted (host : Host) (jsonRows : List Row) (p : Poi)
    (hp : p ∈ uploadAccepted host jsonRows) : ¬ specRejected p := by
  unfold uploadAccepted at hp
  obtain ⟨q, hq, rfl⟩ := List.mem_map.1 hp
  exact ((mem_validPois_iff _ q).1 hq).2

/-- C7 (amended): every record that the upload pipeline accepts and hands to
`updatePoiData` has a title that is non-empty, also after trimming, and passes the
whole validation policy; the pipeline puts no upper bound on the length of the
title: for every `n`, a title of `n + 1` characters is accepted. -/
theorem C7_accepted_titles (host : Host) (jsonRows : List Row) (p : Poi)
    (hp : p ∈ uploadAccepted host jsonRows) :
    p.title ≠ "" ∧ jsTrim p.title ≠ "" ∧ ¬ specRejected p ∧
    (∀ n : Nat, ∃ rows : List Row, ∃ q ∈ uploadAccepted host rows, q.title.length = n + 1) := by
  have hr := mem_uploadAccepted host jsonRows p hp
  have ht : jsTrim p.title ≠ "" := fun c => hr (Or.inl c)
  refine ⟨?_, ht, hr, ?_⟩
  · intro c
    rw [c] at ht
    exact ht jsTrim_empty
  · intro n
    refine ⟨[longTitleRow n], longTitlePoi (host.randomUUID 0) n, ?_, longTitle_length n⟩
    rw [uploadAccepted_longTitleRow]
    exact List.mem_singleton.2 rfl

/-- Witness of C7 (amended) at the one-row sheet `longTitleRow 0`. -/
theorem C7_accepted_titles_witness :
    longTitlePoi "uuid" 0 ∈ uploadAccepted exampleHost [longTitleRow 0] ∧
    (longTitlePoi "uuid" 0).title ≠ "" ∧ jsTrim (longTitlePoi "uuid" 0).title ≠ "" ∧
    ¬ specRejected (longTitlePoi "uuid" 0) ∧
    (∀ n : Nat, ∃ rows : List Row, ∃ q ∈ uploadAccepted exampleHost rows,
      q.title.length = n + 1) :=
  ⟨by rw [uploadAccepted_longTitleRow]; exact List.mem_singleton.2 rfl,
    C7_accepted_titles exampleHost [longTitleRow 0] (longTitlePoi "uuid" 0)
      (by rw [uploadAccepted_longTitleRow]; exact List.mem_singleton.2 rfl)⟩

/-! ## Claims about the batch replace engine -/

theorem exampleStore_succeedsOn (l : List Poi) : exampleStore.succeedsOn l :=
  ⟨⟨7, rfl⟩, fun k _ => ⟨k + 3, rfl⟩⟩

theorem insertCalls_updatePoiData (store : Store) (l : List Poi) (hl : l ≠ [])
    (hs : store.succeedsOn l) : insertCalls (updatePoiData store (some l)) = specChunks l := by
  rw [updatePoiData_success store l hl hs, insertCalls_success_trace]

/-- C8: for a non-empty list of `N` records, when the delete and every insert
succeed, `updatePoiData` issues exactly `ceil(N / 1000)` insert calls: the number
`c` of calls satisfies `1000 * (c - 1) < N ≤ 1000 * c`; it is 1 for `N = 1000`,
2 for `N = 1500` and 3 for `N = 2500`. -/
theorem C8_insert_call_count (store : Store) (l : List Poi) (hl : l ≠ [])
    (hs : store.succeedsOn l) :
    (insertCalls (updatePoiData store (some l))).length = (l.length + 999) / 1000 ∧
    1000 * ((insertCalls (updatePoiData store (some l))).length - 1) < l.length ∧
    l.length ≤ 1000 * (insertCalls (updatePoiData store (some l))).length ∧
    (l.length = 1000 → (insertCalls (updatePoiData store (some l))).length = 1) ∧
    (l.length = 1500 → (insertCalls (updatePoiData store (some l))).length = 2) ∧
    (l.length = 2500 → (insertCalls (updatePoiData store (some l))).length = 3) := by
  have hpos : 0 < l.length := List.length_pos.2 hl
  rw [insertCalls_updatePoiData store l hl hs, specChunks_length, chunkCount]
  refine ⟨rfl, ?_, ?_, ?_, ?_, ?_⟩ <;> omega

/-- Witness of C8 at a one-record list and a store that always succeeds. -/
theorem C8_insert_call_count_witness :
    [examplePoi] ≠ [] ∧ exampleStore.succeedsOn [examplePoi] ∧
    (insertCalls (updatePoiData exampleStore (some [examplePoi]))).length =
      ([examplePoi].length + 999) / 1000 :=
  ⟨by simp, exampleStore_succeedsOn _,
    (C8_insert_call_count exampleStore [examplePoi] (by simp) (exampleStore_succeedsOn _)).1⟩

/-- C9: for a non-empty list, when the delete and every insert succeed, the
batches passed to the successive insert calls, concatenated in call order, are the
input list; every batch but the last holds exactly 1000 records and the last one
holds between 1 and 1000. -/
theorem C9_chunks_partition_input (store : Store) (l : List Poi) (hl : l ≠ [])
    (hs : store.succeedsOn l) :
    (insertCalls (updatePoiData store (some l))).flatten = l ∧
    ∀ (i : Nat) (h : i < (insertCalls (updatePoiData store (some l))).length),
      (i + 1 < (insertCalls (updatePoiData store (some l))).length →
        ((insertCalls (updatePoiData store (some l)))[i]).length = 1000) ∧
      (i + 1 = (insertCalls (updatePoiData store (some l))).length →
        1 ≤ ((insertCalls (updatePoiData store (some l)))[i]).length ∧
        ((insertCalls (updatePoiData store (some l)))[i]).length ≤ 1000) := by
  have hpos : 0 < l.length := List.length_pos.2 hl
  have e := insertCalls_updatePoiData store l hl hs
  refine ⟨by rw [e, specChunks_flatten], ?_⟩
  intro i h
  have h2 : i < (specChunks l).length := by rw [← e]; exact h
  have hlen : ((insertCalls (updatePoiData store (some l)))[i]).length =
      min 1000 (l.length - 1000 * i) := by
    rw [← specChunks_getElem_length l i h2]
    congr 1
    simp only [e]
  rw [hlen]
  have hc : (insertCalls (updatePoiData store (some l))).length = (l.length + 999) / 1000 := by
    rw [e, specChunks_length, chunkCount]
  rw [hc] at h ⊢
  constructor <;> intro _ <;> omega

/-- Witness of C9 at a one-record list and a store that always succeeds. -/
theorem C9_chunks_partition_input_witness :
    [examplePoi] ≠ [] ∧ exampleStore.succeedsOn [examplePoi] ∧
    (insertCalls (updatePoiData exampleStore (some [examplePoi]))).flatten = [examplePoi] :=
  ⟨by simp, exampleStore_succeedsOn _,
    (C9_chunks_partition_input exampleStore [examplePoi] (by simp)
      (exampleStore_succeedsOn _)).1⟩

/-- C10: for a non-empty list of `N` records, when the delete and every insert
succeed, whatever row counts the store reports, `updatePoiData` calls `onSuccess`
exactly once, with `N`, as its last action, and never calls `onError`. -/
theorem C10_success_once_with_total (store : Store) (l : List Poi) (hl : l ≠ [])
    (hs : store.succeedsOn l) :
    successCalls (updatePoiData store (some l)) = [l.length] ∧
    (updatePoiData store (some l)).getLast? = some (Event.onSuccess l.length) ∧
    ∀ err, Event.onError err ∉ updatePoiData store (some l) := by
  rw [updatePoiData_success store l hl hs]
  refine ⟨successCalls_success_trace _ _, ?_, ?_⟩
  · rw [← List.cons_append, List.getLast?_append]
    simp
  · intro err
    simp

/-- Witness of C10 at a one-record list and a store that reports row counts
unrelated to the batches. -/
theorem C10_success_once_with_total_witness :
    [examplePoi] ≠ [] ∧ exampleStore.succeedsOn [examplePoi] ∧
    successCalls (updatePoiData exampleStore (some [examplePoi])) = [[examplePoi].length] :=
  ⟨by simp, exampleStore_succeedsOn _,
    (C10_success_once_with_total exampleStore [examplePoi] (by simp)
      (exampleStore_succeedsOn _)).1⟩

/-! ## Failure paths of the batch replace engine -/

theorem insertCalls_inserts_then (cs : List (List Poi)) (tail : List Event) :
    insertCalls (cs.map Event.insert ++ tail) = cs ++ insertCalls tail := by
  induction cs with
  | nil => rfl
  | cons c cs ih =>
    simp only [insertCalls, List.map_cons, List.cons_append, List.filterMap_cons] at ih ⊢
    rw [ih]

theorem successCalls_inserts_then (cs : List (List Poi)) (tail : List Event) :
    successCalls (cs.map Event.insert ++ tail) = successCalls tail := by
  induction cs with
  | nil => rfl
  | cons c cs ih =>
    simp only [successCalls, List.map_cons, List.cons_append, List.filterMap_cons] at ih ⊢
    rw [ih]

theorem errorCalls_inserts_then (cs : List (List Poi)) (tail : List Event) :
    errorCalls (cs.map Event.insert ++ tail) = errorCalls tail := by
  induction cs with
  | nil => rfl
  | cons c cs ih =>
    simp only [errorCalls, List.map_cons, List.cons_append, List.filterMap_cons] at ih ⊢
    rw [ih]

theorem deleteCalls_inserts_then (cs : List (List Poi)) (tail : List Event) :
    deleteCalls (cs.map Event.insert ++ tail) = deleteCalls tail := by
  induction cs with
  | nil => rfl
  | cons c cs ih =>
    simp only [deleteCalls, List.map_cons, List.cons_append, List.filter_cons] at ih ⊢
    simp only [Bool.false_eq_true, if_false]
    exact ih

theorem iterativeInsert_fail_at (store : Store) (N : Nat) (chunks : List (List Poi)) :
    ∀ (k j : Nat) (b : List Poi) (err : JSError),
      (∀ i c, i < j → chunks[i]? = some c → ∃ n, store.insert (k + i) c = .ok n) →
      chunks[j]? = some b → store.insert (k + j) b = .fail err →
      iterativeInsert store N k chunks =
        (chunks.take (j + 1)).map Event.insert ++ [Event.onError err] := by
  induction chunks with
  | nil => intro k j b err _ hb _; simp at hb
  | cons c cs ih =>
    intro k j b err hok hb hfail
    cases j with
    | zero =>
      simp only [List.getElem?_cons_zero, Option.some.injEq] at hb
      subst hb
      rw [Nat.add_zero] at hfail
      simp [iterativeInsert, hfail]
    | succ j =>
      obtain ⟨n, hn⟩ := hok 0 c (by omega) (by simp)
      rw [Nat.add_zero] at hn
      rw [iterativeInsert, hn]
      simp only [List.take_succ_cons, List.map_cons, List.cons_append, List.cons.injEq, true_and]
      apply ih (k + 1) j b err
      · intro i c2 hi hc2
        have := hok (i + 1) c2 (by omega) (by simpa using hc2)
        rwa [show k + (i + 1) = k + 1 + i by omega] at this
      · simpa using hb
      · rwa [show k + (j + 1) = k + 1 + j by omega] at hfail

theorem deleteCalls_iterativeInsert (store : Store) (N : Nat) (chunks : List (List Poi)) :
    ∀ k : Nat, deleteCalls (iterativeInsert store N k chunks) = 0 := by
  induction chunks with
  | nil => intro k; rfl
  | cons c cs ih =>
    intro k
    rw [iterativeInsert]
    cases h : store.insert k c with
    | ok n => simpa [deleteCalls] using ih (k + 1)
    | fail err => rfl

theorem insertCalls_iterativeInsert_cons (store : Store) (N k : Nat) (c : List Poi)
    (cs : List (List Poi)) :
    insertCalls (iterativeInsert store N k (c :: cs)) =
      c :: match store.insert k c with
        | .ok _ => insertCalls (iterativeInsert store N (k + 1) cs)
        | .fail _ => [] := by
  rw [iterativeInsert]
  cases store.insert k c <;> rfl

theorem iterativeInsert_previous_ok (store : Store) (N : Nat) (chunks : List (List Poi)) :
    ∀ (k i : Nat) (b b2 : List Poi),
      (insertCalls (iterativeInsert store N k chunks))[i]? = some b →
      (insertCalls (iterativeInsert store N k chunks))[i + 1]? = some b2 →
      ∃ n, store.insert (k + i) b = .ok n := by
  induction chunks with
  | nil => intro k i b b2 h1 _; simp [iterativeInsert, insertCalls] at h1
  | cons c cs ih =>
    intro k i b b2 h1 h2
    rw [insertCalls_iterativeInsert_cons] at h1 h2
    cases h : store.insert k c with
    | fail err =>
      rw [h] at h2
      simp at h2
    | ok n =>
      rw [h] at h1 h2
      cases i with
      | zero =>
        simp only [List.getElem?_cons_zero, Option.some.injEq] at h1
        subst h1
        exact ⟨n, h⟩
      | succ i =>
        simp only [List.getElem?_cons_succ] at h1 h2
        have := ih (k + 1) i b b2 h1 h2
        rwa [show k + (i + 1) = k + 1 + i by omega]

theorem insertCalls_iterativeInsert_initial (store : Store) (N : Nat) (chunks : List (List Poi)) :
    ∀ k : Nat, insertCalls (iterativeInsert store N k chunks) <+: chunks := by
  induction chunks with
  | nil => intro k; simp [iterativeInsert, insertCalls]
  | cons c cs ih =>
    intro k
    rw [insertCalls_iterativeInsert_cons]
    cases store.insert k c with
    | fail err => exact ⟨cs, rfl⟩
    | ok n =>
      obtain ⟨t, ht⟩ := ih (k + 1)
      exact ⟨t, by simp only [List.cons_append, ht]⟩

/-- C11: if the delete and the inserts of chunks `1..k-1` succeed and the insert
of chunk `k` fails with `err`, then `updatePoiData` issues the inserts of chunks
`1..k` only, passes `err` itself to `onError` once, never calls `onSuccess`, and
issues no delete besides the initial one. -/
theorem C11_insert_failure_halts (store : Store) (l : List Poi) (k : Nat) (err : JSError)
    (hl : l ≠ []) (hk1 : 1 ≤ k) (hk2 : k ≤ chunkCount l.length)
    (hdel : ∃ n, store.delete = .ok n)
    (hprev : ∀ i, i + 1 < k → ∃ n, store.insert i (chunkAt l i) = .ok n)
    (hfail : store.insert (k - 1) (chunkAt l (k - 1)) = .fail err) :
    updatePoiData store (some l) =
      Event.delete :: (((specChunks l).take k).map Event.insert ++ [Event.onError err]) ∧
    insertCalls (updatePoiData store (some l)) = (specChunks l).take k ∧
    errorCalls (updatePoiData store (some l)) = [err] ∧
    successCalls (updatePoiData store (some l)) = [] ∧
    deleteCalls (updatePoiData store (some l)) = 1 := by
  obtain ⟨d, hd⟩ := hdel
  have hget : ∀ i, i < chunkCount l.length → (specChunks l)[i]? = some (chunkAt l i) := by
    intro i hi
    simp [specChunks, List.getElem?_map, List.getElem?_range hi]
  have htrace : updatePoiData store (some l) =
      Event.delete :: (((specChunks l).take k).map Event.insert ++ [Event.onError err]) := by
    rw [updatePoiData_eq store l hl, hd]
    simp only [List.cons.injEq, true_and]
    have h := iterativeInsert_fail_at store l.length (specChunks l) 0 (k - 1)
      (chunkAt l (k - 1)) err
      (by
        intro i c hi hc
        rw [hget i (by omega)] at hc
        rw [← Option.some.inj hc, Nat.zero_add]
        exact hprev i (by omega))
      (hget (k - 1) (by omega))
      (by rw [Nat.zero_add]; exact hfail)
    rw [h, show k - 1 + 1 = k by omega]
  rw [htrace]
  refine ⟨rfl, ?_, ?_, ?_, ?_⟩
  · show insertCalls (((specChunks l).take k).map Event.insert ++ [Event.onError err]) = _
    rw [insertCalls_inserts_then]; simp [insertCalls]
  · show errorCalls (((specChunks l).take k).map Event.insert ++ [Event.onError err]) = _
    rw [errorCalls_inserts_then]; rfl
  · show successCalls (((specChunks l).take k).map Event.insert ++ [Event.onError err]) = _
    rw [successCalls_inserts_then]; rfl
  · show deleteCalls (((specChunks l).take k).map Event.insert ++ [Event.onError err]) + 1 = _
    rw [deleteCalls_inserts_then]; rfl

/-- Witness of C11: one record, the only chunk fails. -/
theorem C11_insert_failure_halts_witness :
    [examplePoi] ≠ [] ∧ 1 ≤ chunkCount [examplePoi].length ∧
    failingInsertStore.insert 0 (chunkAt [examplePoi] 0) =
      .fail { message := "insert failed", code := none } ∧
    updatePoiData failingInsertStore (some [examplePoi]) =
      Event.delete :: (((specChunks [examplePoi]).take 1).map Event.insert ++
        [Event.onError { message := "insert failed", code := none }]) :=
  ⟨by simp, by decide, rfl,
    (C11_insert_failure_halts failingInsertStore [examplePoi] 1
      { message := "insert failed", code := none } (by simp) (by decide) (by decide)
      ⟨0, rfl⟩ (fun i hi => absurd hi (by omega)) rfl).1⟩

/-- C12: if the delete fails with `err`, `updatePoiData` passes `err` itself to
`onError`, issues no insert and never calls `onSuccess`. -/
theorem C12_delete_failure (store : Store) (l : List Poi) (err : JSError) (hl : l ≠ [])
    (hfail : store.delete = .fail err) :
    updatePoiData store (some l) = [Event.delete, Event.onError err] ∧
    insertCalls (updatePoiData store (some l)) = [] ∧
    errorCalls (updatePoiData store (some l)) = [err] ∧
    successCalls (updatePoiData store (some l)) = [] := by
  have h : updatePoiData store (some l) = [Event.delete, Event.onError err] := by
    rw [updatePoiData_eq store l hl, hfail]
  rw [h]
  exact ⟨rfl, rfl, rfl, rfl⟩

/-- Witness of C12 at a one-record list and a store whose delete fails. -/
theorem C12_delete_failure_witness :
    [examplePoi] ≠ [] ∧
    failingDeleteStore.delete = .fail { message := "delete failed", code := none } ∧
    updatePoiData failingDeleteStore (some [examplePoi]) =
      [Event.delete, Event.onError { message := "delete failed", code := none }] :=
  ⟨by simp, rfl,
    (C12_delete_failure failingDeleteStore [examplePoi]
      { message := "delete failed", code := none } (by simp) rfl).1⟩

/-- C13: given an empty list, or `null`/`undefined`, `updatePoiData` does nothing
but call `onError` once with the error `POI 데이터가 비어있습니다.`: no call of
`onSuccess`, no delete, no insert. -/
theorem C13_empty_input (store : Store) :
    updatePoiData store (some []) =
      [Event.onError { message := "POI 데이터가 비어있습니다.", code := none }] ∧
    updatePoiData store none =
      [Event.onError { message := "POI 데이터가 비어있습니다.", code := none }] ∧
    (∀ poiData, poiData = none ∨ poiData = some [] →
      successCalls (updatePoiData store poiData) = [] ∧
      deleteCalls (updatePoiData store poiData) = 0 ∧
      insertCalls (updatePoiData store poiData) = [] ∧
      (errorCalls (updatePoiData store poiData)).map (fun e => e.message) =
        ["POI 데이터가 비어있습니다."]) := by
  refine ⟨rfl, rfl, ?_⟩
  rintro poiData (h | h) <;> subst h <;> exact ⟨rfl, rfl, rfl, rfl⟩

/-- C14: in every run of `updatePoiData` on a non-empty list the first action is
the delete and it is the only delete; an insert is issued only if the delete
succeeded, the inserts issued are the chunks in order, and whenever an insert is
followed by another one, the earlier insert succeeded. -/
theorem C14_delete_then_sequential_inserts (store : Store) (l : List Poi) (hl : l ≠ []) :
    (updatePoiData store (some l)).head? = some Event.delete ∧
    deleteCalls (updatePoiData store (some l)) = 1 ∧
    (insertCalls (updatePoiData store (some l)) ≠ [] → ∃ n, store.delete = .ok n) ∧
    insertCalls (updatePoiData store (some l)) <+: specChunks l ∧
    (∀ (i : Nat) (b b2 : List Poi),
      (insertCalls (updatePoiData store (some l)))[i]? = some b →
      (insertCalls (updatePoiData store (some l)))[i + 1]? = some b2 →
      ∃ n, store.insert i b = .ok n) := by
  rw [updatePoiData_eq store l hl]
  cases hd : store.delete with
  | fail err =>
    refine ⟨rfl, rfl, fun h => absurd rfl h, ⟨specChunks l, rfl⟩, ?_⟩
    intro i b b2 h1 _
    simp [insertCalls] at h1
  | ok n =>
    refine ⟨rfl, ?_, fun _ => ⟨n, rfl⟩, ?_, ?_⟩
    · show deleteCalls (iterativeInsert store l.length 0 (specChunks l)) + 1 = 1
      rw [deleteCalls_iterativeInsert]
    · exact insertCalls_iterativeInsert_initial store l.length (specChunks l) 0
    · intro i b b2 h1 h2
      have := iterativeInsert_previous_ok store l.length (specChunks l) 0 i b b2 h1 h2
      rwa [Nat.zero_add] at this

/-- Witness of C14 at a one-record list and a store that always succeeds. -/
theorem C14_delete_then_sequential_inserts_witness :
    [examplePoi] ≠ [] ∧
    (updatePoiData exampleStore (some [examplePoi])).head? = some Event.delete ∧
    deleteCalls (updatePoiData exampleStore (some [examplePoi])) = 1 :=
  ⟨by simp,
    (C14_delete_then_sequential_inserts exampleStore [examplePoi] (by simp)).1,
    (C14_delete_then_sequential_inserts exampleStore [examplePoi] (by simp)).2.1⟩

/-! ## Claims about the upload controller -/

theorem copy_fields (l : List Poi) :
    l.map (fun poi =>
      ({ id := poi.id, title := poi.title, latitude := poi.latitude,
         longitude := poi.longitude, created_at := poi.created_at } : Poi)) = l := by
  induction l with
  | nil => rfl
  | cons p rest ih => rw [List.map_cons, ih]

theorem uploadAccepted_eq (host : Host) (rows : List Row) :
    uploadAccepted host rows = (validatePoiList (parseRows host rows)).validPois := by
  unfold uploadAccepted parseRows
  exact copy_fields _

theorem parseRows_length (host : Host) (rows : List Row) :
    (parseRows host rows).length = rows.length := by
  simp [parseRows, List.enum]

theorem validation_lengths (R : List Poi) :
    (validatePoiList R).validPois.length + (validatePoiList R).errors.length = R.length := by
  rw [validatePoiList_eq]
  exact filter_length_add_diagnosticsFrom_length R 0

theorem uploadExcel_all_rejected (env : UploadEnv) (model : List Poi → List Event)
    (file : UploadedFile) (rows : List Row) (hread : env.readSheet file.path = .ok rows)
    (herr : (validatePoiList (parseRows env.host rows)).errors ≠ [])
    (hval : (validatePoiList (parseRows env.host rows)).validPois = []) :
    uploadExcel env model (some file) =
      [.unlink file.path,
       .respond 400 (buildErr 400 "데이터 검증 중 오류가 발생했습니다."
         (.validation (validatePoiList (parseRows env.host rows)).errors) 0)] := by
  have h1 : (validatePoiList (parseRows env.host rows)).errors.length > 0 :=
    List.length_pos.2 herr
  have h2 : (validatePoiList (parseRows env.host rows)).validPois.length = 0 := by
    rw [hval]; rfl
  simp only [uploadExcel, hread]
  rw [if_pos h1, if_pos h2]

theorem uploadExcel_proceeds (env : UploadEnv) (model : List Poi → List Event)
    (file : UploadedFile) (rows : List Row) (hread : env.readSheet file.path = .ok rows)
    (h : (validatePoiList (parseRows env.host rows)).errors = [] ∨
      (validatePoiList (parseRows env.host rows)).validPois ≠ []) :
    uploadExcel env model (some file) =
      .unlink file.path :: .updatePoiData (uploadAccepted env.host rows) ::
        (model (uploadAccepted env.host rows)).flatMap
          (uploadCallback file (validatePoiList (parseRows env.host rows)).errors
            (uploadAccepted env.host rows)) := by
  simp only [uploadExcel, hread, copy_fields, uploadAccepted_eq]
  rcases h with h | h
  · rw [if_neg (by rw [h]; simp)]
  · have h2 : ¬ (validatePoiList (parseRows env.host rows)).validPois.length = 0 := by
      intro c; exact h (List.length_eq_zero.1 c)
    rw [if_neg h2]
    simp

/-- C15 (defect of the handler, evaluated at the failing input): for a sheet
without rows the accepted set is empty, yet the handler calls `updatePoiData` with
the empty list and answers with status 500; for a sheet whose only row is rejected,
where the accepted set is empty as well, it answers with status 400. -/
theorem C15_empty_sheet_answers_500 :
    uploadExcel (sheetEnv []) (fun d => updatePoiData exampleStore (some d)) (some exampleFile) =
      [.unlink "uploads/tmp1",
       .updatePoiData [],
       .model (.onError { message := "POI 데이터가 비어있습니다.", code := none }),
       .respond 500 (buildErr 500 "POI 데이터 업데이트 중 오류가 발생했습니다." .empty 0)] ∧
    (buildErr 500 "POI 데이터 업데이트 중 오류가 발생했습니다." .empty 0).statusCode = 500 ∧
    uploadAccepted (sheetEnv []).host [] = [] ∧
    uploadAccepted (sheetEnv [blankRow]).host [blankRow] = [] ∧
    uploadExcel (sheetEnv [blankRow]) (fun d => updatePoiData exampleStore (some d))
        (some exampleFile) =
      [.unlink "uploads/tmp1",
       .respond 400 (buildErr 400 "데이터 검증 중 오류가 발생했습니다."
         (.validation ["Row 1: title is empty, latitude is invalid, longitude is invalid"]) 0)] := by
  refine ⟨rfl, rfl, rfl, by decide, by decide⟩

/-- What the handler does when no record is accepted: with at least one row it
answers 400 without calling the model; without rows it calls `updatePoiData` with
the empty list and answers 500; the store sees neither a delete nor an insert. -/
theorem uploadExcel_empty_accepted_set (env : UploadEnv) (store : Store) (file : UploadedFile)
    (rows : List Row) (hread : env.readSheet file.path = .ok rows)
    (hempty : (validatePoiList (parseRows env.host rows)).validPois = []) :
    (rows ≠ [] →
      uploadExcel env (fun d => updatePoiData store (some d)) (some file) =
        [.unlink file.path,
         .respond 400 (buildErr 400 "데이터 검증 중 오류가 발생했습니다."
           (.validation (validatePoiList (parseRows env.host rows)).errors) 0)]) ∧
    (rows = [] →
      uploadExcel env (fun d => updatePoiData store (some d)) (some file) =
        [.unlink file.path,
         .updatePoiData [],
         .model (.onError { message := "POI 데이터가 비어있습니다.", code := none }),
         .respond 500 (buildErr 500 "POI 데이터 업데이트 중 오류가 발생했습니다." .empty 0)]) ∧
    (UploadEvent.model Event.delete ∉
        uploadExcel env (fun d => updatePoiData store (some d)) (some file) ∧
      ∀ b, UploadEvent.model (Event.insert b) ∉
        uploadExcel env (fun d => updatePoiData store (some d)) (some file)) := by
  have hA : rows ≠ [] →
      uploadExcel env (fun d => updatePoiData store (some d)) (some file) =
        [.unlink file.path,
         .respond 400 (buildErr 400 "데이터 검증 중 오류가 발생했습니다."
           (.validation (validatePoiList (parseRows env.host rows)).errors) 0)] := by
    intro hne
    apply uploadExcel_all_rejected env _ file rows hread _ hempty
    intro c
    have h := validation_lengths (parseRows env.host rows)
    rw [hempty, c, parseRows_length] at h
    exact hne (List.length_eq_zero.1 h.symm)
  have hB : rows = [] →
      uploadExcel env (fun d => updatePoiData store (some d)) (some file) =
        [.unlink file.path,
         .updatePoiData [],
         .model (.onError { message := "POI 데이터가 비어있습니다.", code := none }),
         .respond 500 (buildErr 500 "POI 데이터 업데이트 중 오류가 발생했습니다." .empty 0)] := by
    intro he
    subst he
    rw [uploadExcel_proceeds env _ file [] hread (Or.inl rfl)]
    rfl
  refine ⟨hA, hB, ?_⟩
  by_cases hr : rows = []
  · rw [hB hr]
    exact ⟨by simp, fun b => by simp⟩
  · rw [hA hr]
    exact ⟨by simp, fun b => by simp⟩

theorem errors_length_of_all_rejected (R : List Poi) (hall : ∀ p ∈ R, specRejected p) :
    (validatePoiList R).validPois = [] ∧ (validatePoiList R).errors.length = R.length := by
  have hv : (validatePoiList R).validPois = [] := by
    rw [validPois_eq, List.filter_eq_nil_iff]
    intro p hp
    simpa using hall p hp
  have h := validation_lengths R
  rw [hv] at h
  exact ⟨hv, by simpa using h⟩

/-- C16: when the sheet has at least one row and every row is rejected, the handler
unlinks the temporary file and answers with status 400, the message
`데이터 검증 중 오류가 발생했습니다.` and the complete list of diagnostics (one per
row) in `resultData.errors`; it never calls `updatePoiData`, so the model and the
store do nothing. -/
theorem C16_all_rows_rejected (env : UploadEnv) (model : List Poi → List Event)
    (file : UploadedFile) (rows : List Row) (hread : env.readSheet file.path = .ok rows)
    (hrows : rows ≠ []) (hall : ∀ p ∈ parseRows env.host rows, specRejected p) :
    uploadExcel env model (some file) =
      [.unlink file.path,
       .respond 400 (buildErr 400 "데이터 검증 중 오류가 발생했습니다."
         (.validation (validatePoiList (parseRows env.host rows)).errors) 0)] ∧
    (buildErr 400 "데이터 검증 중 오류가 발생했습니다."
      (.validation (validatePoiList (parseRows env.host rows)).errors) 0).statusCode = 400 ∧
    (buildErr 400 "데이터 검증 중 오류가 발생했습니다."
      (.validation (validatePoiList (parseRows env.host rows)).errors) 0).statusMessage =
        "데이터 검증 중 오류가 발생했습니다." ∧
    (buildErr 400 "데이터 검증 중 오류가 발생했습니다."
      (.validation (validatePoiList (parseRows env.host rows)).errors) 0).resultData =
        .validation (validatePoiList (parseRows env.host rows)).errors ∧
    (validatePoiList (parseRows env.host rows)).errors.length = rows.length ∧
    (∀ d, UploadEvent.updatePoiData d ∉ uploadExcel env model (some file)) ∧
    (∀ e, UploadEvent.model e ∉ uploadExcel env model (some file)) := by
  obtain ⟨hv, hlen⟩ := errors_length_of_all_rejected (parseRows env.host rows) hall
  rw [parseRows_length] at hlen
  have herr : (validatePoiList (parseRows env.host rows)).errors ≠ [] := by
    intro c
    rw [c] at hlen
    exact hrows (List.length_eq_zero.1 hlen.symm)
  rw [uploadExcel_all_rejected env model file rows hread herr hv]
  exact ⟨rfl, rfl, rfl, rfl, hlen, fun d => by simp, fun e => by simp⟩

/-- Witness of C16 at a sheet whose only row is blank. -/
theorem C16_all_rows_rejected_witness :
    (sheetEnv [blankRow]).readSheet exampleFile.path = .ok [blankRow] ∧
    [blankRow] ≠ [] ∧
    (∀ p ∈ parseRows (sheetEnv [blankRow]).host [blankRow], specRejected p) ∧
    uploadExcel (sheetEnv [blankRow]) (fun d => updatePoiData exampleStore (some d))
        (some exampleFile) =
      [.unlink exampleFile.path,
       .respond 400 (buildErr 400 "데이터 검증 중 오류가 발생했습니다."
         (.validation
           (validatePoiList (parseRows (sheetEnv [blankRow]).host [blankRow])).errors) 0)] :=
  ⟨rfl, by simp, by decide,
    (C16_all_rows_rejected (sheetEnv [blankRow]) (fun d => updatePoiData exampleStore (some d))
      exampleFile [blankRow] rfl (by simp) (by decide)).1⟩

theorem respond_mem_of_onSuccess (file : UploadedFile) (errors : List String)
    (data : List Poi) (trace : List Event) (c : Nat) (h : Event.onSuccess c ∈ trace) :
    UploadEvent.respond 200 (buildOk (uploadMessage c errors)
        (.upload c file.originalname (if errors.length > 0 then some errors else none))
        (if c ≠ 0 then c else data.length)) ∈
      trace.flatMap (uploadCallback file errors data) := by
  rw [List.mem_flatMap]
  exact ⟨Event.onSuccess c, h, by simp [uploadCallback]⟩

/-- C17: when some rows are rejected and at least one is accepted, the handler
unlinks the temporary file and calls `updatePoiData` with exactly the accepted
records in input order; when the model signals success with count `c`, it answers
with status 200, `resultData.count = c`, `resultData.errors` the complete list of
diagnostics, and a message that states the number of rejected rows. -/
theorem C17_partial_rejection_proceeds (env : UploadEnv) (model : List Poi → List Event)
    (file : UploadedFile) (rows : List Row) (hread : env.readSheet file.path = .ok rows)
    (hacc : (validatePoiList (parseRows env.host rows)).validPois ≠ [])
    (hrej : (validatePoiList (parseRows env.host rows)).errors ≠ []) :
    uploadExcel env model (some file) =
      .unlink file.path :: .updatePoiData (uploadAccepted env.host rows) ::
        (model (uploadAccepted env.host rows)).flatMap
          (uploadCallback file (validatePoiList (parseRows env.host rows)).errors
            (uploadAccepted env.host rows)) ∧
    uploadAccepted env.host rows =
      (parseRows env.host rows).filter (fun p => decide (¬ specRejected p)) ∧
    (validatePoiList (parseRows env.host rows)).errors.length =
      (rejectedRows (parseRows env.host rows)).length ∧
    (∀ c, Event.onSuccess c ∈ model (uploadAccepted env.host rows) →
      UploadEvent.respond 200
        (buildOk
          (toString c ++ "개의 POI 데이터가 성공적으로 업데이트되었습니다." ++ " (" ++
            toString (rejectedRows (parseRows env.host rows)).length ++ "개 행에서 오류 발생)")
          (.upload c file.originalname (some (validatePoiList (parseRows env.host rows)).errors))
          (if c ≠ 0 then c else (uploadAccepted env.host rows).length)) ∈
        uploadExcel env model (some file)) := by
  have hlen : (validatePoiList (parseRows env.host rows)).errors.length =
      (rejectedRows (parseRows env.host rows)).length := by
    rw [errors_eq, List.length_map]
  have hpos : (validatePoiList (parseRows env.host rows)).errors.length > 0 :=
    List.length_pos.2 hrej
  have htrace := uploadExcel_proceeds env model file rows hread (Or.inr hacc)
  refine ⟨htrace, ?_, hlen, ?_⟩
  · rw [uploadAccepted_eq, validPois_eq]
  · intro c hc
    rw [htrace]
    have h := respond_mem_of_onSuccess file (validatePoiList (parseRows env.host rows)).errors
      (uploadAccepted env.host rows) _ c hc
    rw [if_pos hpos] at h
    have hpos2 : (rejectedRows (parseRows env.host rows)).length > 0 := by
      rw [← hlen]; exact hpos
    simp only [uploadMessage, hlen, if_pos hpos2] at h
    exact List.mem_cons_of_mem _ (List.mem_cons_of_mem _ h)

/-- Witness of C17 at a sheet with one blank row and one valid row. -/
theorem C17_partial_rejection_proceeds_witness :
    (sheetEnv [blankRow, seoulRow]).readSheet exampleFile.path = .ok [blankRow, seoulRow] ∧
    (validatePoiList (parseRows (sheetEnv [blankRow, seoulRow]).host
      [blankRow, seoulRow])).validPois ≠ [] ∧
    (validatePoiList (parseRows (sheetEnv [blankRow, seoulRow]).host
      [blankRow, seoulRow])).errors ≠ [] ∧
    uploadAccepted (sheetEnv [blankRow, seoulRow]).host [blankRow, seoulRow] =
      (parseRows (sheetEnv [blankRow, seoulRow]).host [blankRow, seoulRow]).filter
        (fun p => decide (¬ specRejected p)) :=
  ⟨rfl, by decide, by decide,
    (C17_partial_rejection_proceeds (sheetEnv [blankRow, seoulRow])
      (fun d => updatePoiData exampleStore (some d)) exampleFile [blankRow, seoulRow] rfl
      (by decide) (by decide)).2.1⟩

/-! ## Claims about the row parser -/

theorem jsOr_chain (a b c d : JSVal) :
    jsOr (jsOr (jsOr a b) c) d = firstTruthy [a, b, c] d := by
  unfold firstTruthy
  cases ha : a.truthy <;> cases hb : b.truthy <;> cases hc : c.truthy <;>
    simp [jsOr, List.find?, ha, hb, hc]

theorem toPoiFromExcelRow_eq (host : Host) (call : Nat) (row : Row) :
    toPoiFromExcelRow host call row =
      { id := host.randomUUID call,
        title := jsTrim (jsToString host (selectedTitle row)),
        latitude := parseCoordinate host (selectedLatitude row),
        longitude := parseCoordinate host (selectedLongitude row),
        created_at := none } := by
  simp only [toPoiFromExcelRow, jsOr_chain, selectedTitle, selectedLatitude, selectedLongitude]

theorem firstTruthy_cases (a b c d : JSVal) :
    (a.truthy = true → firstTruthy [a, b, c] d = a) ∧
    (a.truthy = false → b.truthy = true → firstTruthy [a, b, c] d = b) ∧
    (a.truthy = false → b.truthy = false → c.truthy = true → firstTruthy [a, b, c] d = c) ∧
    (a.truthy = false → b.truthy = false → c.truthy = false → firstTruthy [a, b, c] d = d) := by
  unfold firstTruthy
  refine ⟨?_, ?_, ?_, ?_⟩
  · intro ha; simp [List.find?, ha]
  · intro ha hb; simp [List.find?, ha, hb]
  · intro ha hb hc; simp [List.find?, ha, hb, hc]
  · intro ha hb hc; simp [List.find?, ha, hb, hc]

theorem firstTruthy_truthy_or_default (vs : List JSVal) (d : JSVal) :
    (firstTruthy vs d).truthy = true ∨ firstTruthy vs d = d := by
  unfold firstTruthy
  cases h : vs.find? JSVal.truthy with
  | none => right; rfl
  | some v => left; exact List.find?_some h

/-- C18 (as stated, refuted): in a row with the number 0 under `latitude` and the
number 5 under `Latitude`, the label `latitude` is present, yet the parser takes 5. -/
theorem C18_present_zero_is_skipped :
    List.lookup "latitude" zeroThenFiveRow = some (.num (.fin 0)) ∧
    (toPoiFromExcelRow exampleHost 0 zeroThenFiveRow).latitude = .fin 5 := by
  decide

/-- C18 (amended): for each of title, latitude and longitude the parser works on
the first truthy value among the lowercase, Capitalized and UPPERCASE labels, in
that order: a truthy value under an earlier label is never overridden by a later
one, a value that is absent or falsy is skipped, and the default (empty title,
coordinate 0) is used exactly when none of the three is truthy. -/
theorem C18_first_truthy_label (host : Host) (call : Nat) (row : Row) :
    (toPoiFromExcelRow host call row).title =
      jsTrim (jsToString host
        (firstTruthy [row.get "title", row.get "Title", row.get "TITLE"] (.str ""))) ∧
    (toPoiFromExcelRow host call row).latitude =
      parseCoordinate host
        (firstTruthy [row.get "latitude", row.get "Latitude", row.get "LATITUDE"]
          (.num (.fin 0))) ∧
    (toPoiFromExcelRow host call row).longitude =
      parseCoordinate host
        (firstTruthy [row.get "longitude", row.get "Longitude", row.get "LONGITUDE"]
          (.num (.fin 0))) ∧
    (∀ a b c d : JSVal,
      (a.truthy = true → firstTruthy [a, b, c] d = a) ∧
      (a.truthy = false → b.truthy = true → firstTruthy [a, b, c] d = b) ∧
      (a.truthy = false → b.truthy = false → c.truthy = true → firstTruthy [a, b, c] d = c) ∧
      (a.truthy = false → b.truthy = false → c.truthy = false →
        firstTruthy [a, b, c] d = d)) ∧
    (∀ label, row.lookup label = none → (row.get label).truthy = false) ∧
    JSVal.truthy (.num (.fin 0)) = false ∧ JSVal.truthy (.str "") = false := by
  rw [toPoiFromExcelRow_eq]
  refine ⟨rfl, rfl, rfl, firstTruthy_cases, ?_, by decide, by decide⟩
  intro label h
  simp [Row.get, h, JSVal.truthy]

theorem parseCoordinate_ne_nan (host : Host) (vs : List JSVal) :
    parseCoordinate host (firstTruthy vs (.num (.fin 0))) ≠ .nan := by
  have h := firstTruthy_truthy_or_default vs (.num (.fin 0))
  cases hv : firstTruthy vs (.num (.fin 0)) with
  | num n =>
    rw [hv] at h
    intro c
    simp only [parseCoordinate] at c
    subst c
    rcases h with h | h
    · simp [JSVal.truthy] at h
    · simp at h
  | str s =>
    simp only [parseCoordinate]
    by_cases hp : host.parseFloat s = .nan
    · rw [if_pos hp]; simp
    · rw [if_neg hp]; exact hp
  | undefined => simp [parseCoordinate]
  | null => simp [parseCoordinate]
  | bool b => simp [parseCoordinate]

theorem firstTruthy_all_undefined (d : JSVal) :
    firstTruthy [.undefined, .undefined, .undefined] d = d := by
  simp [firstTruthy, List.find?, JSVal.truthy]

/-- C19: the latitude and the longitude returned by `toPoiFromExcelRow` are the
selected value itself when it is a number, the result of `parseFloat` when it is
a text that `parseFloat` reads as a number, and 0 when it is a text that
`parseFloat` cannot read or when the three labels are absent; they are never `NaN`. -/
theorem C19_coordinate_coercion (host : Host) (call : Nat) (row : Row) :
    ((∀ n, selectedLatitude row = .num n → (toPoiFromExcelRow host call row).latitude = n) ∧
      (∀ s, selectedLatitude row = .str s → host.parseFloat s ≠ .nan →
        (toPoiFromExcelRow host call row).latitude = host.parseFloat s) ∧
      (∀ s, selectedLatitude row = .str s → host.parseFloat s = .nan →
        (toPoiFromExcelRow host call row).latitude = .fin 0) ∧
      (row.get "latitude" = .undefined → row.get "Latitude" = .undefined →
        row.get "LATITUDE" = .undefined → (toPoiFromExcelRow host call row).latitude = .fin 0) ∧
      (toPoiFromExcelRow host call row).latitude ≠ .nan) ∧
    ((∀ n, selectedLongitude row = .num n → (toPoiFromExcelRow host call row).longitude = n) ∧
      (∀ s, selectedLongitude row = .str s → host.parseFloat s ≠ .nan →
        (toPoiFromExcelRow host call row).longitude = host.parseFloat s) ∧
      (∀ s, selectedLongitude row = .str s → host.parseFloat s = .nan →
        (toPoiFromExcelRow host call row).longitude = .fin 0) ∧
      (row.get "longitude" = .undefined → row.get "Longitude" = .undefined →
        row.get "LONGITUDE" = .undefined →
        (toPoiFromExcelRow host call row).longitude = .fin 0) ∧
      (toPoiFromExcelRow host call row).longitude ≠ .nan) := by
  rw [toPoiFromExcelRow_eq]
  refine ⟨⟨?_, ?_, ?_, ?_, ?_⟩, ⟨?_, ?_, ?_, ?_, ?_⟩⟩
  · intro n h; simp only [h, parseCoordinate]
  · intro s h hp; simp only [h, parseCoordinate, if_neg hp]
  · intro s h hp; simp only [h, parseCoordinate, if_pos hp]
  · intro h1 h2 h3
    simp only [selectedLatitude, h1, h2, h3, firstTruthy_all_undefined, parseCoordinate]
  · exact parseCoordinate_ne_nan host _
  · intro n h; simp only [h, parseCoordinate]
  · intro s h hp; simp only [h, parseCoordinate, if_neg hp]
  · intro s h hp; simp only [h, parseCoordinate, if_pos hp]
  · intro h1 h2 h3
    simp only [selectedLongitude, h1, h2, h3, firstTruthy_all_undefined, parseCoordinate]
  · exact parseCoordinate_ne_nan host _

theorem dropWhile_eq_self_of_prefix (p : Char → Bool) : ∀ (t A : List Char),
    A.dropWhile p = A → t <+: A → t.dropWhile p = t := by
  intro t A hA hpre
  cases t with
  | nil => rfl
  | cons x t =>
    obtain ⟨r, hr⟩ := hpre
    have hx : ¬ p x = true := by
      intro c
      rw [← hr, List.cons_append, List.dropWhile_cons, if_pos c] at hA
      have h1 := (List.dropWhile_suffix p (l := t ++ r)).length_le
      rw [hA] at h1
      simp at h1
    exact List.dropWhile_cons_of_neg hx

theorem trimChars_fixed (cs : List Char) (h1 : cs.dropWhile isJSWhiteSpace = cs)
    (h2 : cs.reverse.dropWhile isJSWhiteSpace = cs.reverse) : trimChars cs = cs := by
  unfold trimChars
  rw [h1, h2, List.reverse_reverse]

theorem trimChars_idempotent (cs : List Char) : trimChars (trimChars cs) = trimChars cs := by
  apply trimChars_fixed
  · unfold trimChars
    apply dropWhile_eq_self_of_prefix isJSWhiteSpace _ (cs.dropWhile isJSWhiteSpace)
      (List.dropWhile_idempotent _ _)
    have h := List.reverse_prefix.2
      (List.dropWhile_suffix isJSWhiteSpace (l := (cs.dropWhile isJSWhiteSpace).reverse))
    rwa [List.reverse_reverse] at h
  · unfold trimChars
    rw [List.reverse_reverse]
    exact List.dropWhile_idempotent _ _

theorem trimChars_whitespace (cs : List Char) (h : ∀ c ∈ cs, isJSWhiteSpace c = true) :
    trimChars cs = [] := by
  unfold trimChars
  rw [List.dropWhile_eq_nil_iff.2 h]
  rfl

theorem trimChars_decompose (cs : List Char) :
    ∃ pre post : List Char, (∀ c ∈ pre, isJSWhiteSpace c = true) ∧
      (∀ c ∈ post, isJSWhiteSpace c = true) ∧ cs = pre ++ trimChars cs ++ post := by
  refine ⟨cs.takeWhile isJSWhiteSpace,
    (((cs.dropWhile isJSWhiteSpace).reverse).takeWhile isJSWhiteSpace).reverse,
    fun c hc => List.mem_takeWhile_imp hc,
    fun c hc => List.mem_takeWhile_imp (List.mem_reverse.1 hc), ?_⟩
  unfold trimChars
  rw [List.append_assoc, ← List.reverse_append, List.takeWhile_append_dropWhile,
    List.reverse_reverse, List.takeWhile_append_dropWhile]

theorem trimChars_ends (cs : List Char) :
    (∀ c, (trimChars cs).head? = some c → isJSWhiteSpace c = false) ∧
    (∀ c, (trimChars cs).getLast? = some c → isJSWhiteSpace c = false) := by
  have hid := trimChars_idempotent cs
  constructor
  · intro c hc
    cases ht : trimChars cs with
    | nil => rw [ht] at hc; simp at hc
    | cons x t =>
      rw [ht] at hc
      simp only [List.head?_cons, Option.some.injEq] at hc
      subst hc
      by_contra hw
      have hw2 : isJSWhiteSpace x = true := by simpa using hw
      have h1 : (trimChars (x :: t)).length ≤ t.length := by
        unfold trimChars
        rw [List.dropWhile_cons, if_pos hw2, List.length_reverse]
        exact ((List.dropWhile_suffix _).length_le).trans
          (by rw [List.length_reverse]; exact (List.dropWhile_suffix _).length_le)
      rw [← ht, hid, ht] at h1
      simp at h1
  · intro c hc
    have hrev : (trimChars cs).reverse.head? = some c := by
      rw [List.head?_reverse]; exact hc
    cases ht : (trimChars cs).reverse with
    | nil => rw [ht] at hrev; simp at hrev
    | cons x t =>
      rw [ht] at hrev
      simp only [List.head?_cons, Option.some.injEq] at hrev
      subst hrev
      by_contra hw
      have hw2 : isJSWhiteSpace x = true := by simpa using hw
      have hfix : (trimChars cs).reverse.dropWhile isJSWhiteSpace = (trimChars cs).reverse := by
        unfold trimChars
        rw [List.reverse_reverse]
        exact List.dropWhile_idempotent _ _
      rw [ht, List.dropWhile_cons, if_pos hw2] at hfix
      have h1 := (List.dropWhile_suffix isJSWhiteSpace (l := t)).length_le
      rw [hfix] at h1
      simp at h1

theorem jsTrim_idempotent (s : String) : jsTrim (jsTrim s) = jsTrim s := by
  simp only [jsTrim, trimChars_idempotent]

theorem jsTrim_whitespace (s : String) (h : ∀ c ∈ s.data, isJSWhiteSpace c = true) :
    jsTrim s = "" := by
  simp only [jsTrim, trimChars_whitespace s.data h]

/-- C20: the title returned by `toPoiFromExcelRow` is the string form of the
selected title value with the leading and the trailing whitespace removed (the text
is the title between two runs of whitespace, and the title neither starts nor ends
with whitespace); trimming it again changes nothing; a title made of whitespace only
becomes the empty string and the record is then rejected by `validatePoiList` with
the reason `title is empty`. -/
theorem C20_title_is_trimmed (host : Host) (call : Nat) (row : Row) :
    (toPoiFromExcelRow host call row).title = jsTrim (jsToString host (selectedTitle row)) ∧
    jsTrim (toPoiFromExcelRow host call row).title = (toPoiFromExcelRow host call row).title ∧
    (∃ pre post : List Char, (∀ c ∈ pre, isJSWhiteSpace c = true) ∧
      (∀ c ∈ post, isJSWhiteSpace c = true) ∧
      (jsToString host (selectedTitle row)).data =
        pre ++ (toPoiFromExcelRow host call row).title.data ++ post) ∧
    (∀ c, (toPoiFromExcelRow host call row).title.data.head? = some c →
      isJSWhiteSpace c = false) ∧
    (∀ c, (toPoiFromExcelRow host call row).title.data.getLast? = some c →
      isJSWhiteSpace c = false) ∧
    ((∀ c ∈ (jsToString host (selectedTitle row)).data, isJSWhiteSpace c = true) →
      (toPoiFromExcelRow host call row).title = "" ∧
      "title is empty" ∈ collectIssues (toPoiFromExcelRow host call row) ∧
      (validatePoiList [toPoiFromExcelRow host call row]).validPois = [] ∧
      "Row 1: " ++ jsJoin ", " (collectIssues (toPoiFromExcelRow host call row)) ∈
        (validatePoiList [toPoiFromExcelRow host call row]).errors) := by
  have ht : (toPoiFromExcelRow host call row).title =
      jsTrim (jsToString host (selectedTitle row)) := by
    rw [toPoiFromExcelRow_eq]
  refine ⟨ht, ?_, ?_, ?_, ?_, ?_⟩
  · rw [ht, jsTrim_idempotent]
  · rw [ht]; exact trimChars_decompose _
  · rw [ht]; exact (trimChars_ends _).1
  · rw [ht]; exact (trimChars_ends _).2
  · intro hws
    have he : (toPoiFromExcelRow host call row).title = "" := by
      rw [ht]; exact jsTrim_whitespace _ hws
    have hr : specRejected (toPoiFromExcelRow host call row) := by
      left; rw [he]; exact jsTrim_empty
    refine ⟨he, ?_, ?_, ?_⟩
    · rw [collectIssues_eq_specReasons]
      simp [specReasons, he, jsTrim_empty]
    · rw [validPois_eq]
      simp [hr]
    · rw [collectIssues_eq_specReasons]
      exact specDiagnostic_mem_errors [toPoiFromExcelRow host call row] 1 _ (by simp) hr

/-! ## Claims about the read controllers -/

theorem trimChars_eq_nil (cs : List Char) (h : trimChars cs = []) :
    ∀ c ∈ cs, isJSWhiteSpace c = true := by
  obtain ⟨pre, post, h1, h2, h3⟩ := trimChars_decompose cs
  rw [h, List.append_nil] at h3
  intro c hc
  rw [h3] at hc
  rcases List.mem_append.1 hc with hc | hc
  · exact h1 c hc
  · exact h2 c hc

theorem jsTrim_ne_empty (s : String) (h : ∃ c ∈ s.data, isJSWhiteSpace c = false) :
    jsTrim s ≠ "" := by
  intro c
  obtain ⟨x, hx, hw⟩ := h
  have hd : trimChars s.data = [] := by
    have := congrArg String.data c
    simpa [jsTrim] using this
  rw [trimChars_eq_nil s.data hd x hx] at hw
  exact Bool.noConfusion hw

theorem searchPoi_blank (store : ReadStore) (searchText : Option String)
    (hblank : searchText = none ∨
      ∃ s, searchText = some s ∧ ∀ c ∈ s.data, isJSWhiteSpace c = true) :
    searchPoi store searchText =
      [.respond 200 (buildOk "검색어를 입력해주세요." (.rows []) 0)] := by
  rcases hblank with h | ⟨s, h, hws⟩
  · subst h; rfl
  · subst h
    have ht : jsTrim s = "" := jsTrim_whitespace s hws
    simp [searchPoi, ht]

theorem searchPoi_query (store : ReadStore) (s : String)
    (hs : ∃ c ∈ s.data, isJSWhiteSpace c = false) :
    searchPoi store (some s) =
      .searchPoiByName (jsTrim s) :: .select "poi" "searchPoiByName" (some (jsTrim s)) ::
        match store.select "poi" "searchPoiByName" (some (jsTrim s)) with
        | .ok data =>
          [.respond 200
            (buildOk
              (doubleQuote ++ jsTrim s ++ doubleQuote ++ " 검색 결과: " ++
                toString data.length ++ "개")
              (.rows data) data.length)]
        | .fail error =>
          if error.code = some "42P01" then
            [.respond 200 (buildOk missingTableMessage (.rows []) 0)]
          else
            [.respond 500 (buildErr 500 "POI 검색 중 오류가 발생했습니다." .empty 0)] := by
  have ht : jsTrim s ≠ "" := jsTrim_ne_empty s hs
  have hne : s ≠ "" := by
    intro c
    rw [c] at ht
    exact ht jsTrim_empty
  simp [searchPoi, ht, hne]

/-- C21: when `searchText` is absent, empty or made of whitespace only, `searchPoi`
does nothing but answer with status 200 and the success envelope with payload
`[]`, count 0 and the message `검색어를 입력해주세요.`; `searchPoiByName` is not
called and no store query is issued. -/
theorem C21_blank_search (store : ReadStore) (searchText : Option String)
    (hblank : searchText = none ∨
      ∃ s, searchText = some s ∧ ∀ c ∈ s.data, isJSWhiteSpace c = true) :
    searchPoi store searchText =
      [.respond 200 (buildOk "검색어를 입력해주세요." (.rows []) 0)] ∧
    (buildOk "검색어를 입력해주세요." (.rows []) 0).statusCode = 200 ∧
    (buildOk "검색어를 입력해주세요." (.rows []) 0).statusMessage = "검색어를 입력해주세요." ∧
    (buildOk "검색어를 입력해주세요." (.rows []) 0).resultData = .rows [] ∧
    (buildOk "검색어를 입력해주세요." (.rows []) 0).resultCnt = 0 ∧
    (∀ t, ReadEvent.searchPoiByName t ∉ searchPoi store searchText) ∧
    (∀ m q t, ReadEvent.select m q t ∉ searchPoi store searchText) := by
  rw [searchPoi_blank store searchText hblank]
  exact ⟨rfl, rfl, rfl, rfl, rfl, fun t => by simp, fun m q t => by simp⟩

/-- Witness of C21 at a search text of three spaces. -/
theorem C21_blank_search_witness :
    ((some "   " : Option String) = none ∨
      ∃ s, (some "   " : Option String) = some s ∧ ∀ c ∈ s.data, isJSWhiteSpace c = true) ∧
    searchPoi emptyReadStore (some "   ") =
      [.respond 200 (buildOk "검색어를 입력해주세요." (.rows []) 0)] :=
  ⟨Or.inr ⟨"   ", rfl, by decide⟩,
    (C21_blank_search emptyReadStore (some "   ") (Or.inr ⟨"   ", rfl, by decide⟩)).1⟩

/-- C22: when `searchText` has a character that is not whitespace, `searchPoi`
calls `searchPoiByName` once and the store is queried once, both with the trimmed
text, followed by one response; the trimmed text is `searchText` without its
leading and trailing whitespace. -/
theorem C22_trimmed_search_text (store : ReadStore) (s : String)
    (hs : ∃ c ∈ s.data, isJSWhiteSpace c = false) :
    (∃ status body, searchPoi store (some s) =
      [.searchPoiByName (jsTrim s), .select "poi" "searchPoiByName" (some (jsTrim s)),
       .respond status body]) ∧
    (∃ pre post : List Char, (∀ c ∈ pre, isJSWhiteSpace c = true) ∧
      (∀ c ∈ post, isJSWhiteSpace c = true) ∧ s.data = pre ++ (jsTrim s).data ++ post) ∧
    (∀ c, (jsTrim s).data.head? = some c → isJSWhiteSpace c = false) ∧
    (∀ c, (jsTrim s).data.getLast? = some c → isJSWhiteSpace c = false) := by
  refine ⟨?_, trimChars_decompose s.data, (trimChars_ends s.data).1, (trimChars_ends s.data).2⟩
  rw [searchPoi_query store s hs]
  cases store.select "poi" "searchPoiByName" (some (jsTrim s)) with
  | ok data => exact ⟨_, _, rfl⟩
  | fail error =>
    by_cases hc : error.code = some "42P01"
    · exact ⟨200, buildOk missingTableMessage (.rows []) 0, by simp [hc]⟩
    · exact ⟨500, buildErr 500 "POI 검색 중 오류가 발생했습니다." .empty 0, by simp [hc]⟩

/-- Witness of C22 at a text with surrounding spaces. -/
theorem C22_trimmed_search_text_witness :
    (∃ c ∈ " ab ".data, isJSWhiteSpace c = false) ∧
    (∃ status body, searchPoi emptyReadStore (some " ab ") =
      [.searchPoiByName (jsTrim " ab "),
       .select "poi" "searchPoiByName" (some (jsTrim " ab ")), .respond status body]) :=
  ⟨⟨'a', by decide, by decide⟩,
    (C22_trimmed_search_text emptyReadStore " ab " ⟨'a', by decide, by decide⟩).1⟩

/-- C23: when the store fails with an error whose code is `42P01`, `getAllPoi`
and `searchPoi` (with a text that is not blank) answer with status 200 and the
success envelope with payload `[]`, count 0 and the fixed message about the
missing table. -/
theorem C23_missing_table_degrades (store : ReadStore) (err : JSError)
    (hcode : err.code = some "42P01") :
    (store.select "poi" "getAllPoi" none = .fail err →
      getAllPoi store =
        [.getAllPoi, .select "poi" "getAllPoi" none,
         .respond 200 (buildOk missingTableMessage (.rows []) 0)]) ∧
    (∀ s : String, (∃ c ∈ s.data, isJSWhiteSpace c = false) →
      store.select "poi" "searchPoiByName" (some (jsTrim s)) = .fail err →
      searchPoi store (some s) =
        [.searchPoiByName (jsTrim s), .select "poi" "searchPoiByName" (some (jsTrim s)),
         .respond 200 (buildOk missingTableMessage (.rows []) 0)]) ∧
    (buildOk missingTableMessage (.rows []) 0).statusCode = 200 ∧
    (buildOk missingTableMessage (.rows []) 0).statusMessage =
      "POI 테이블이 존재하지 않습니다. 엑셀 파일을 업로드해주세요." ∧
    (buildOk missingTableMessage (.rows []) 0).resultData = .rows [] ∧
    (buildOk missingTableMessage (.rows []) 0).resultCnt = 0 := by
  refine ⟨?_, ?_, rfl, rfl, rfl, rfl⟩
  · intro h
    simp [getAllPoi, h, hcode]
  · intro s hs h
    rw [searchPoi_query store s hs, h]
    simp [hcode]

/-- Witness of C23 at a store that always fails with the relation-not-found error. -/
theorem C23_missing_table_degrades_witness :
    missingTableError.code = some "42P01" ∧
    (failingReadStore missingTableError).select "poi" "getAllPoi" none =
      .fail missingTableError ∧
    getAllPoi (failingReadStore missingTableError) =
      [.getAllPoi, .select "poi" "getAllPoi" none,
       .respond 200 (buildOk missingTableMessage (.rows []) 0)] :=
  ⟨rfl, rfl,
    (C23_missing_table_degrades (failingReadStore missingTableError) missingTableError rfl).1
      rfl⟩

/-- C24: when the store fails with an error whose code is not `42P01`, `getAllPoi`
answers with status 500 and the message `POI 데이터를 조회할 수 없습니다.`, and
`searchPoi` (with a text that is not blank) with status 500 and the message
`POI 검색 중 오류가 발생했습니다.`; the whole behaviour is the same for any two
such errors, so nothing of the error reaches the response. -/
theorem C24_other_failures_are_500 (store : ReadStore) (err : JSError)
    (hcode : err.code ≠ some "42P01") :
    (store.select "poi" "getAllPoi" none = .fail err →
      getAllPoi store =
        [.getAllPoi, .select "poi" "getAllPoi" none,
         .respond 500 (buildErr 500 "POI 데이터를 조회할 수 없습니다." .empty 0)]) ∧
    (∀ s : String, (∃ c ∈ s.data, isJSWhiteSpace c = false) →
      store.select "poi" "searchPoiByName" (some (jsTrim s)) = .fail err →
      searchPoi store (some s) =
        [.searchPoiByName (jsTrim s), .select "poi" "searchPoiByName" (some (jsTrim s)),
         .respond 500 (buildErr 500 "POI 검색 중 오류가 발생했습니다." .empty 0)]) ∧
    (∀ err2 : JSError, err2.code ≠ some "42P01" →
      getAllPoi (failingReadStore err) = getAllPoi (failingReadStore err2) ∧
      ∀ t, searchPoi (failingReadStore err) t = searchPoi (failingReadStore err2) t) ∧
    (buildErr 500 "POI 데이터를 조회할 수 없습니다." .empty 0).statusCode = 500 ∧
    (buildErr 500 "POI 검색 중 오류가 발생했습니다." .empty 0).statusCode = 500 := by
  refine ⟨?_, ?_, ?_, rfl, rfl⟩
  · intro h
    simp [getAllPoi, h, hcode]
  · intro s hs h
    rw [searchPoi_query store s hs, h]
    simp [hcode]
  · intro err2 hcode2
    constructor
    · simp [getAllPoi, failingReadStore, hcode, hcode2]
    · intro t
      cases t with
      | none => rfl
      | some s =>
        by_cases hb : (s == "" || jsTrim s == "") = true
        · simp only [searchPoi, hb, if_true]
        · simp [searchPoi, hb, failingReadStore, hcode, hcode2]

/-- Witness of C24 at a store that always fails with a connection error. -/
theorem C24_other_failures_are_500_witness :
    connectionError.code ≠ some "42P01" ∧
    (failingReadStore connectionError).select "poi" "getAllPoi" none =
      .fail connectionError ∧
    getAllPoi (failingReadStore connectionError) =
      [.getAllPoi, .select "poi" "getAllPoi" none,
       .respond 500 (buildErr 500 "POI 데이터를 조회할 수 없습니다." .empty 0)] :=
  ⟨by decide, rfl,
    (C24_other_failures_are_500 (failingReadStore connectionError) connectionError
      (by decide)).1 rfl⟩

/-! ## Claims about the temporary file and the envelope -/

theorem unlink_not_mem_uploadCallback (file : UploadedFile) (errors : List String)
    (data : List Poi) (e : Event) (p : String) :
    UploadEvent.unlink p ∉ uploadCallback file errors data e := by
  cases e <;> simp [uploadCallback]

theorem uploadExcel_ok_eq (env : UploadEnv) (model : List Poi → List Event)
    (file : UploadedFile) (rows : List Row) (hread : env.readSheet file.path = .ok rows) :
    uploadExcel env model (some file) =
      [.unlink file.path,
       .respond 400 (buildErr 400 "데이터 검증 중 오류가 발생했습니다."
         (.validation (validatePoiList (parseRows env.host rows)).errors) 0)] ∨
    uploadExcel env model (some file) =
      .unlink file.path :: .updatePoiData (uploadAccepted env.host rows) ::
        (model (uploadAccepted env.host rows)).flatMap
          (uploadCallback file (validatePoiList (parseRows env.host rows)).errors
            (uploadAccepted env.host rows)) := by
  by_cases h : (validatePoiList (parseRows env.host rows)).errors = [] ∨
      (validatePoiList (parseRows env.host rows)).validPois ≠ []
  · exact Or.inr (uploadExcel_proceeds env model file rows hread h)
  · have h1 : (validatePoiList (parseRows env.host rows)).errors ≠ [] := fun c => h (Or.inl c)
    have h2 : (validatePoiList (parseRows env.host rows)).validPois = [] := by
      by_contra c; exact h (Or.inr c)
    exact Or.inl (uploadExcel_all_rejected env model file rows hread h1 h2)

theorem uploadExcel_error_eq (env : UploadEnv) (model : List Poi → List Event)
    (file : UploadedFile) (err : JSError) (hread : env.readSheet file.path = .error err) :
    uploadExcel env model (some file) =
      [.unlink file.path,
       .respond 500 (buildErr 500 "엑셀 파일 처리 중 오류가 발생했습니다." .empty 0)] := by
  simp only [uploadExcel, hread]

/-- C25: for every upload with a file attached the first action of the handler is
to unlink the temporary file, and it does so once: every response, every call of
`updatePoiData` and every action of the model and the store comes after it, whether
all rows are rejected, the store succeeds, the store fails, or reading the
workbook throws. -/
theorem C25_temp_file_released (env : UploadEnv) (model : List Poi → List Event)
    (file : UploadedFile) :
    (∃ rest, uploadExcel env model (some file) = .unlink file.path :: rest ∧
      ∀ p, UploadEvent.unlink p ∉ rest) ∧
    (∀ err, env.readSheet file.path = .error err →
      uploadExcel env model (some file) =
        [.unlink file.path,
         .respond 500 (buildErr 500 "엑셀 파일 처리 중 오류가 발생했습니다." .empty 0)]) ∧
    (∀ rows, env.readSheet file.path = .ok rows →
      uploadExcel env model (some file) =
        [.unlink file.path,
         .respond 400 (buildErr 400 "데이터 검증 중 오류가 발생했습니다."
           (.validation (validatePoiList (parseRows env.host rows)).errors) 0)] ∨
      uploadExcel env model (some file) =
        .unlink file.path :: .updatePoiData (uploadAccepted env.host rows) ::
          (model (uploadAccepted env.host rows)).flatMap
            (uploadCallback file (validatePoiList (parseRows env.host rows)).errors
              (uploadAccepted env.host rows))) := by
  refine ⟨?_, fun err h => uploadExcel_error_eq env model file err h,
    fun rows h => uploadExcel_ok_eq env model file rows h⟩
  cases hread : env.readSheet file.path with
  | error err =>
    rw [uploadExcel_error_eq env model file err hread]
    exact ⟨_, rfl, fun p => by simp⟩
  | ok rows =>
    rcases uploadExcel_ok_eq env model file rows hread with h | h
    · rw [h]
      exact ⟨_, rfl, fun p => by simp⟩
    · rw [h]
      refine ⟨_, rfl, fun p hp => ?_⟩
      rcases List.mem_cons.1 hp with hp | hp
      · exact UploadEvent.noConfusion hp
      · obtain ⟨e, _, he⟩ := List.mem_flatMap.1 hp
        exact unlink_not_mem_uploadCallback file _ _ e p he

theorem responseContract_ok (message : String) (resultData : ResultData) (resultCnt : Nat) :
    responseContract 200 (buildOk message resultData resultCnt) := by
  simp [responseContract, buildOk, getReturnMessage]

theorem responseContract_err400 (message : String) (resultData : ResultData) (resultCnt : Nat) :
    responseContract 400 (buildErr 400 message resultData resultCnt) := by
  simp [responseContract, buildErr, getReturnMessage]

theorem responseContract_err500 (message : String) (resultData : ResultData) (resultCnt : Nat) :
    responseContract 500 (buildErr 500 message resultData resultCnt) := by
  simp [responseContract, buildErr, getReturnMessage]

theorem responseContract_uploadCallback (file : UploadedFile) (errors : List String)
    (data : List Poi) (e : Event) (status : Nat) (body : Envelope)
    (h : UploadEvent.respond status body ∈ uploadCallback file errors data e) :
    responseContract status body := by
  cases e with
  | delete => simp [uploadCallback] at h
  | insert l => simp [uploadCallback] at h
  | onSuccess c =>
    simp [uploadCallback] at h
    obtain ⟨rfl, rfl⟩ := h
    exact responseContract_ok _ _ _
  | onError err =>
    simp [uploadCallback] at h
    obtain ⟨rfl, rfl⟩ := h
    exact responseContract_err500 _ _ _

theorem responseContract_uploadExcel (env : UploadEnv) (model : List Poi → List Event)
    (file : Option UploadedFile) (status : Nat) (body : Envelope)
    (h : UploadEvent.respond status body ∈ uploadExcel env model file) :
    responseContract status body := by
  cases file with
  | none =>
    simp [uploadExcel] at h
    obtain ⟨rfl, rfl⟩ := h
    exact responseContract_err400 _ _ _
  | some file =>
    cases hread : env.readSheet file.path with
    | error err =>
      rw [uploadExcel_error_eq env model file err hread] at h
      simp at h
      obtain ⟨rfl, rfl⟩ := h
      exact responseContract_err500 _ _ _
    | ok rows =>
      rcases uploadExcel_ok_eq env model file rows hread with h2 | h2
      · rw [h2] at h
        simp at h
        obtain ⟨rfl, rfl⟩ := h
        exact responseContract_err400 _ _ _
      · rw [h2] at h
        rcases List.mem_cons.1 h with h | h
        · exact UploadEvent.noConfusion h
        · rcases List.mem_cons.1 h with h | h
          · exact UploadEvent.noConfusion h
          · obtain ⟨e, _, he⟩ := List.mem_flatMap.1 h
            exact responseContract_uploadCallback file _ _ e status body he

theorem responseContract_getAllPoi (store : ReadStore) (status : Nat) (body : Envelope)
    (h : ReadEvent.respond status body ∈ getAllPoi store) : responseContract status body := by
  unfold getAllPoi at h
  cases hs : store.select "poi" "getAllPoi" none with
  | ok data =>
    rw [hs] at h
    simp at h
    obtain ⟨rfl, rfl⟩ := h
    exact responseContract_ok _ _ _
  | fail err =>
    rw [hs] at h
    by_cases hc : err.code = some "42P01"
    · simp [hc] at h
      obtain ⟨rfl, rfl⟩ := h
      exact responseContract_ok _ _ _
    · simp [hc] at h
      obtain ⟨rfl, rfl⟩ := h
      exact responseContract_err500 _ _ _

theorem responseContract_searchPoi (store : ReadStore) (searchText : Option String)
    (status : Nat) (body : Envelope)
    (h : ReadEvent.respond status body ∈ searchPoi store searchText) :
    responseContract status body := by
  cases searchText with
  | none =>
    simp [searchPoi] at h
    obtain ⟨rfl, rfl⟩ := h
    exact responseContract_ok _ _ _
  | some s =>
    by_cases hb : (s == "" || jsTrim s == "") = true
    · simp only [searchPoi, hb, if_true] at h
      simp at h
      obtain ⟨rfl, rfl⟩ := h
      exact responseContract_ok _ _ _
    · simp only [searchPoi, hb] at h
      cases hs : store.select "poi" "searchPoiByName" (some (jsTrim s)) with
      | ok data =>
        rw [hs] at h
        simp at h
        obtain ⟨rfl, rfl⟩ := h
        exact responseContract_ok _ _ _
      | fail err =>
        rw [hs] at h
        by_cases hc : err.code = some "42P01"
        · simp [hc] at h
          obtain ⟨rfl, rfl⟩ := h
          exact responseContract_ok _ _ _
        · simp [hc] at h
          obtain ⟨rfl, rfl⟩ := h
          exact responseContract_err500 _ _ _

/-- C26: every response of `uploadExcel`, `getAllPoi` and `searchPoi` has status
200, 400 or 500, carries an envelope with that same status code, and an error
envelope repeats its code and message in `errorCode` and `errorMessage`; without a
file `uploadExcel` answers 400 with `errorCode` 400 and the same message in both
fields. -/
theorem C26_response_contract :
    (∀ (env : UploadEnv) (model : List Poi → List Event) (file : Option UploadedFile)
      (status : Nat) (body : Envelope),
      UploadEvent.respond status body ∈ uploadExcel env model file →
      responseContract status body) ∧
    (∀ (store : ReadStore) (status : Nat) (body : Envelope),
      ReadEvent.respond status body ∈ getAllPoi store → responseContract status body) ∧
    (∀ (store : ReadStore) (searchText : Option String) (status : Nat) (body : Envelope),
      ReadEvent.respond status body ∈ searchPoi store searchText →
      responseContract status body) ∧
    (∀ (env : UploadEnv) (model : List Poi → List Event),
      uploadExcel env model none =
        [.respond 400
          { statusCode := 400, statusMessage := "파일이 업로드되지 않았습니다.",
            errorCode := some 400, errorMessage := some "파일이 업로드되지 않았습니다.",
            resultData := .empty, resultCnt := 0 }]) :=
  ⟨responseContract_uploadExcel, responseContract_getAllPoi, responseContract_searchPoi,
    fun _ _ => rfl⟩

/-! ## Claims about the sample data SQL -/

theorem readSqlBody_append_quote (s : List Char) (h : singleQuote ∉ s) :
    readSqlBody (s ++ [singleQuote]) = some s := by
  induction s with
  | nil => simp [readSqlBody]
  | cons c t ih =>
    have hc : c ≠ singleQuote := fun e => h (by rw [e]; exact List.mem_cons_self _ _)
    have ht : singleQuote ∉ t := fun m => h (List.mem_cons_of_mem _ m)
    have hih := ih ht
    cases t with
    | nil =>
      simp only [List.nil_append] at hih
      simp [readSqlBody, hc]
    | cons d r =>
      simp only [List.cons_append] at hih ⊢
      rw [readSqlBody, if_neg hc, hih]
      rfl

theorem properlyQuoted_of_no_quote (s : String) (h : singleQuote ∉ s.data) :
    properlyQuoted s (String.singleton singleQuote ++ s ++ String.singleton singleQuote) := by
  unfold properlyQuoted
  simp only [String.data_append, String.singleton, List.append_assoc]
  show readSqlLiteral (singleQuote :: (s.data ++ [singleQuote])) = some s.data
  rw [readSqlLiteral, if_pos rfl]
  exact readSqlBody_append_quote s.data h

/-- C27 (as stated, refuted): for the sample row `{ title: "Test's POI" }` the
function emits the title between single quotes with its apostrophe unchanged; the
emitted text is not a well-formed SQL string literal for the title. -/
theorem C27_apostrophe_not_escaped :
    getInsertSampleDataSQL exampleHost "poi" (some [apostropheRow]) =
      "INSERT INTO poi (title) VALUES\n('Test's POI');" ∧
    joinElement exampleHost (sampleCell (.str apostropheTitle)) = "'Test's POI'" ∧
    ¬ properlyQuoted apostropheTitle (joinElement exampleHost (sampleCell (.str apostropheTitle))) := by
  decide

/-- C27 (amended): `getInsertSampleDataSQL` returns the empty string when
`sampleData` is missing or empty, and otherwise the `INSERT INTO` header with the
labels of the first row joined by `, `, then one parenthesised tuple per sample row
in order, joined by a comma and a line break and closed by `;`; a string value is
emitted between single quotes with its text unchanged (a well-formed literal when
the text has no single quote), a number or a boolean is emitted without quotes. -/
theorem C27_insert_sample_data_sql (host : Host) (tableName : String) :
    getInsertSampleDataSQL host tableName none = "" ∧
    getInsertSampleDataSQL host tableName (some []) = "" ∧
    (∀ (first : Row) (rest : List Row),
      getInsertSampleDataSQL host tableName (some (first :: rest)) =
        "INSERT INTO " ++ tableName ++ " (" ++ ", ".intercalate (first.map Prod.fst) ++
          ") VALUES\n" ++
          ",\n".intercalate ((first :: rest).map (fun row =>
            "(" ++ ", ".intercalate ((first.map Prod.fst).map (fun col =>
              joinElement host (sampleCell (row.get col)))) ++ ")")) ++ ";") ∧
    (∀ s : String, joinElement host (sampleCell (.str s)) =
      String.singleton singleQuote ++ s ++ String.singleton singleQuote) ∧
    (∀ s : String, singleQuote ∉ s.data →
      properlyQuoted s (joinElement host (sampleCell (.str s)))) ∧
    (∀ n : JSNum, joinElement host (sampleCell (.num n)) = host.numberToString n) ∧
    (∀ b : Bool, joinElement host (sampleCell (.bool b)) = if b then "true" else "false") :=
  ⟨rfl, rfl, fun _ _ => rfl, fun _ => rfl, fun s h => properlyQuoted_of_no_quote s h,
    fun _ => rfl, fun _ => rfl⟩

/-! ## Claims about the equivalence with an explicit loop -/

theorem storeOperations_congr (a b : List Event) (h : a = b) :
    storeOperations a = storeOperations b := by rw [h]

/-- C28: for every non-empty input and every behaviour of the store, the recursive
batching of `updatePoiData` produces the same sequence of events as the explicit
loop over the chunks of 1000 records that leaves at the first failure: the same
store operations with the same arguments and the same final outcome. -/
theorem C28_recursion_equals_loop (store : Store) (l : List Poi) (hl : l ≠ []) :
    updatePoiData store (some l) = updatePoiDataIterative store l ∧
    storeOperations (updatePoiData store (some l)) =
      storeOperations (updatePoiDataIterative store l) ∧
    successCalls (updatePoiData store (some l)) =
      successCalls (updatePoiDataIterative store l) ∧
    errorCalls (updatePoiData store (some l)) = errorCalls (updatePoiDataIterative store l) ∧
    (updatePoiData store (some l)).getLast? = (updatePoiDataIterative store l).getLast? := by
  have h : updatePoiData store (some l) = updatePoiDataIterative store l := by
    rw [updatePoiData_eq store l hl]; rfl
  rw [h]
  exact ⟨rfl, rfl, rfl, rfl, rfl⟩

/-- Witness of C28 at a one-record list and a store whose inserts fail. -/
theorem C28_recursion_equals_loop_witness :
    [examplePoi] ≠ [] ∧
    updatePoiData failingInsertStore (some [examplePoi]) =
      updatePoiDataIterative failingInsertStore [examplePoi] :=
  ⟨by simp, (C28_recursion_equals_loop failingInsertStore [examplePoi] (by simp)).1⟩

/-! ## Claims about revalidation -/

theorem rejectedRows_eq_nil (R : List Poi) (h : ∀ p ∈ R, ¬ specRejected p) :
    rejectedRows R = [] := by
  unfold rejectedRows
  rw [List.filter_eq_nil_iff]
  rintro ⟨k, p⟩ hkp
  have hp : p ∈ R := List.snd_mem_of_mem_enumFrom hkp
  simpa using h p hp

/-- C30: validating the accepted output of `validatePoiList` again returns the
same accepted records and no diagnostic. -/
theorem C30_validation_idempotent (R : List Poi) :
    validatePoiList (validatePoiList R).validPois =
      { validPois := (validatePoiList R).validPois, errors := [] } := by
  have hacc : ∀ p ∈ (validatePoiList R).validPois, ¬ specRejected p :=
    fun p hp => ((mem_validPois_iff R p).1 hp).2
  have h1 : (validatePoiList (validatePoiList R).validPois).validPois =
      (validatePoiList R).validPois := by
    rw [validPois_eq (validatePoiList R).validPois, List.filter_eq_self]
    intro p hp
    simpa using hacc p hp
  have h2 : (validatePoiList (validatePoiList R).validPois).errors = [] := by
    rw [errors_eq, rejectedRows_eq_nil _ hacc]
    rfl
  cases hv : validatePoiList (validatePoiList R).validPois with
  | mk v e =>
    rw [hv] at h1 h2
    simp only at h1 h2
    rw [h1, h2]

/-! ## Claims about the control flow of the batches -/

theorem processBatchSteps_unfold (store : Store) (poiData : List Poi) (totalCount : Nat)
    (calls processedCount startIndex : Nat) :
    processBatchSteps store poiData totalCount calls processedCount startIndex =
      Step.enter startIndex
          (jsSlice poiData startIndex (min (startIndex + batchSize) totalCount)).length ::
        if (jsSlice poiData startIndex (min (startIndex + batchSize) totalCount)).length = 0 then
          [Step.successOnEmptyBatch, Step.event (Event.onSuccess totalCount)]
        else
          Step.event
              (Event.insert (jsSlice poiData startIndex (min (startIndex + batchSize) totalCount))) ::
            match store.insert calls
                (jsSlice poiData startIndex (min (startIndex + batchSize) totalCount)) with
            | .ok _ =>
              if processedCount +
                  (jsSlice poiData startIndex (min (startIndex + batchSize) totalCount)).length
                  ≥ totalCount then
                [Step.successAfterInsert, Step.event (Event.onSuccess totalCount)]
              else
                processBatchSteps store poiData totalCount (calls + 1)
                  (processedCount +
                    (jsSlice poiData startIndex (min (startIndex + batchSize) totalCount)).length)
                  (min (startIndex + batchSize) totalCount)
            | .fail err => [Step.event (Event.onError err)] := by
  rw [processBatchSteps]
  simp only [dite_eq_ite]

theorem eraseSteps_processBatchSteps (store : Store) (poiData : List Poi) (totalCount : Nat) :
    ∀ (n calls processedCount startIndex : Nat), totalCount - startIndex = n →
      eraseSteps (processBatchSteps store poiData totalCount calls processedCount startIndex) =
        processBatch store poiData totalCount calls processedCount startIndex := by
  intro n
  induction n using Nat.strong_induction_on with
  | _ n ih =>
    intro calls processedCount startIndex hn
    rw [processBatchSteps_unfold, processBatch_unfold]
    by_cases h0 : (jsSlice poiData startIndex (min (startIndex + batchSize) totalCount)).length = 0
    · rw [if_pos h0, if_pos h0]; rfl
    · rw [if_neg h0, if_neg h0]
      have hlen := h0
      simp only [jsSlice, List.length_take, List.length_drop] at hlen
      cases hr : store.insert calls
          (jsSlice poiData startIndex (min (startIndex + batchSize) totalCount)) with
      | fail err => rfl
      | ok r =>
        simp only []
        by_cases hdone : processedCount +
            (jsSlice poiData startIndex (min (startIndex + batchSize) totalCount)).length
            ≥ totalCount
        · rw [if_pos hdone, if_pos hdone]; rfl
        · rw [if_neg hdone, if_neg hdone]
          have := ih (totalCount - min (startIndex + batchSize) totalCount) (by omega)
            (calls + 1) (processedCount +
              (jsSlice poiData startIndex (min (startIndex + batchSize) totalCount)).length)
            (min (startIndex + batchSize) totalCount) rfl
          simp only [eraseSteps, List.filterMap_cons] at this ⊢
          rw [this]

theorem eraseSteps_updatePoiDataSteps (store : Store) (poiData : Option (List Poi)) :
    eraseSteps (updatePoiDataSteps store poiData) = updatePoiData store poiData := by
  cases poiData with
  | none => rfl
  | some l =>
    unfold updatePoiDataSteps updatePoiData
    by_cases h : l.length = 0
    · simp only [h, if_true]; rfl
    · simp only [h, if_false]
      cases store.delete with
      | fail err => rfl
      | ok r =>
        have := eraseSteps_processBatchSteps store l l.length _ 0 0 0 rfl
        simp only [eraseSteps, List.filterMap_cons] at this ⊢
        rw [this]

theorem no_empty_batch_success (store : Store) (l : List Poi) (m : Nat) :
    ∀ c : Nat, c + m = chunkCount l.length → 1000 * c < l.length →
      Step.successOnEmptyBatch ∉ processBatchSteps store l l.length c (1000 * c) (1000 * c) ∧
      ∀ s, Step.enter s 0 ∉ processBatchSteps store l l.length c (1000 * c) (1000 * c) := by
  induction m with
  | zero => intro c h1 h2; unfold chunkCount at h1; omega
  | succ m ih =>
    intro c h1 h2
    have hlen : (chunkAt l c).length = min 1000 (l.length - 1000 * c) := by
      simp [chunkAt, List.length_take, List.length_drop]
    rw [processBatchSteps_unfold, jsSlice_eq_chunkAt]
    have hne : ¬ (chunkAt l c).length = 0 := by rw [hlen]; omega
    rw [if_neg hne]
    cases store.insert c (chunkAt l c) with
    | fail err =>
      refine ⟨by simp, fun s => ?_⟩
      simp only [List.mem_cons, Step.enter.injEq, List.mem_singleton, reduceCtorEq, or_false,
        List.not_mem_nil]
      intro hc; exact hne hc.2.symm
    | ok n =>
      simp only []
      by_cases hlast : 1000 * c + (chunkAt l c).length ≥ l.length
      · rw [if_pos hlast]
        refine ⟨by simp, fun s => ?_⟩
        simp only [List.mem_cons, Step.enter.injEq, List.mem_singleton, reduceCtorEq, or_false,
          List.not_mem_nil]
        intro hc; exact hne hc.2.symm
      · rw [if_neg hlast]
        rw [hlen] at hlast
        have e1 : 1000 * c + (chunkAt l c).length = 1000 * (c + 1) := by rw [hlen]; omega
        have e2 : min (1000 * c + batchSize) l.length = 1000 * (c + 1) := by
          unfold batchSize; omega
        rw [e1, e2]
        obtain ⟨i1, i2⟩ := ih (c + 1) (by omega) (by omega)
        refine ⟨by simp [i1], fun s => ?_⟩
        simp only [List.mem_cons, Step.enter.injEq, reduceCtorEq, false_or]
        rintro (hc | hc)
        · exact hne hc.2.symm
        · exact i2 s hc

theorem processBatchSteps_1500 (store : Store) (l : List Poi) (hlen : l.length = 1500)
    (hs : store.succeedsOn l) :
    processBatchSteps store l l.length 0 0 0 =
      [Step.enter 0 1000, Step.event (Event.insert (chunkAt l 0)),
       Step.enter 1000 500, Step.event (Event.insert (chunkAt l 1)),
       Step.successAfterInsert, Step.event (Event.onSuccess l.length)] := by
  obtain ⟨_, hi⟩ := hs
  obtain ⟨n0, h0⟩ := hi 0 (by rw [hlen]; decide)
  obtain ⟨n1, h1⟩ := hi 1 (by rw [hlen]; decide)
  have l0 : (chunkAt l 0).length = 1000 := by
    simp [chunkAt, List.length_take, List.length_drop, hlen]
  have l1 : (chunkAt l 1).length = 500 := by
    simp [chunkAt, List.length_take, List.length_drop, hlen]
  have e0 := jsSlice_eq_chunkAt l 0
  have e1 := jsSlice_eq_chunkAt l 1
  simp only [Nat.mul_zero, Nat.mul_one] at e0 e1
  have m0 : min (0 + batchSize) l.length = 1000 := by rw [hlen]; decide
  rw [processBatchSteps_unfold, e0, l0, h0, if_neg (by decide)]
  simp only []
  rw [if_neg (by omega), m0, processBatchSteps_unfold, e1, l1, h1, if_neg (by decide)]
  simp only []
  rw [if_pos (by omega)]

theorem updatePoiDataSteps_1500 (store : Store) (l : List Poi) (hlen : l.length = 1500)
    (hs : store.succeedsOn l) :
    updatePoiDataSteps store (some l) =
      [Step.event Event.delete,
       Step.enter 0 1000, Step.event (Event.insert (chunkAt l 0)),
       Step.enter 1000 500, Step.event (Event.insert (chunkAt l 1)),
       Step.successAfterInsert, Step.event (Event.onSuccess 1500)] := by
  have hp := processBatchSteps_1500 store l hlen hs
  obtain ⟨⟨d, hd⟩, _⟩ := hs
  have hne : ¬ l.length = 0 := by rw [hlen]; decide
  simp only [updatePoiDataSteps, if_neg hne, hd, hp]
  rw [hlen]

theorem chunkAt_replicate_1500 (p : Poi) :
    chunkAt (List.replicate 1500 p) 0 = List.replicate 1000 p ∧
    chunkAt (List.replicate 1500 p) 1 = List.replicate 500 p := by
  constructor
  · rw [chunkAt, List.drop_replicate, List.take_replicate]
    rfl
  · rw [chunkAt, List.drop_replicate, List.take_replicate]
    rfl

theorem steps_1500_no_empty_batch (store : Store) (l : List Poi) (hlen : l.length = 1500)
    (hs : store.succeedsOn l) :
    Step.successOnEmptyBatch ∉ updatePoiDataSteps store (some l) ∧
    ∀ s, Step.enter s 0 ∉ updatePoiDataSteps store (some l) := by
  rw [updatePoiDataSteps_1500 store l hlen hs]
  refine ⟨?_, fun s => ?_⟩
  · simp only [List.mem_cons, List.mem_singleton, reduceCtorEq, List.not_mem_nil, or_self,
      not_false_eq_true]
  · simp only [List.mem_cons, List.mem_singleton, reduceCtorEq, List.not_mem_nil,
      Step.enter.injEq, or_false, false_or, not_or, not_and]
    exact ⟨fun _ => by decide, fun _ => by decide⟩

theorem updatePoiDataSteps_no_empty_batch (store : Store) (l : List Poi) (hl : l ≠ []) :
    Step.successOnEmptyBatch ∉ updatePoiDataSteps store (some l) := by
  have hpos : 0 < l.length := List.length_pos.2 hl
  have hne : ¬ l.length = 0 := by omega
  have h := (no_empty_batch_success store l (chunkCount l.length) 0 (by simp) (by omega)).1
  simp only [Nat.mul_zero] at h
  simp only [updatePoiDataSteps, if_neg hne]
  cases store.delete with
  | fail err => simp
  | ok r =>
    simp only [List.mem_cons, reduceCtorEq, false_or]
    exact h

/-- C29 (as stated, refuted): with 1500 records and a store that always succeeds,
`processBatch` is entered twice only, with slices of 1000 and 500 records, and the
success is signalled after the second insert; it is never entered with an empty
slice and the `batch.length === 0` branch is not taken. -/
theorem C29_no_third_entry :
    updatePoiDataSteps exampleStore (some (List.replicate 1500 examplePoi)) =
      [Step.event Event.delete,
       Step.enter 0 1000, Step.event (Event.insert (List.replicate 1000 examplePoi)),
       Step.enter 1000 500, Step.event (Event.insert (List.replicate 500 examplePoi)),
       Step.successAfterInsert, Step.event (Event.onSuccess 1500)] ∧
    Step.successOnEmptyBatch ∉
      updatePoiDataSteps exampleStore (some (List.replicate 1500 examplePoi)) := by
  have h := updatePoiDataSteps_1500 exampleStore (List.replicate 1500 examplePoi)
    (List.length_replicate _ _) (exampleStore_succeedsOn _)
  rw [(chunkAt_replicate_1500 examplePoi).1, (chunkAt_replicate_1500 examplePoi).2] at h
  exact ⟨h, (steps_1500_no_empty_batch exampleStore (List.replicate 1500 examplePoi)
    (List.length_replicate _ _) (exampleStore_succeedsOn _)).1⟩

/-- C29 (amended): with 1500 records, when the delete and every insert succeed,
`updatePoiData` processes two batches, of 1000 and of 500 records, and signals
success with 1500 from the callback of the second insert (the test
`processedCount >= totalCount`); `processBatch` is entered exactly twice, at start
indexes 0 and 1000, never with an empty slice, and the `batch.length === 0` branch
is not taken, as for every non-empty input. The recorded events are those of
`updatePoiData`. -/
theorem C29_success_after_second_insert (store : Store) (l : List Poi)
    (hlen : l.length = 1500) (hs : store.succeedsOn l) :
    updatePoiDataSteps store (some l) =
      [Step.event Event.delete,
       Step.enter 0 1000, Step.event (Event.insert (chunkAt l 0)),
       Step.enter 1000 500, Step.event (Event.insert (chunkAt l 1)),
       Step.successAfterInsert, Step.event (Event.onSuccess 1500)] ∧
    (chunkAt l 0).length = 1000 ∧ (chunkAt l 1).length = 500 ∧
    Step.successOnEmptyBatch ∉ updatePoiDataSteps store (some l) ∧
    (∀ s, Step.enter s 0 ∉ updatePoiDataSteps store (some l)) ∧
    eraseSteps (updatePoiDataSteps store (some l)) = updatePoiData store (some l) ∧
    (∀ (store2 : Store) (l2 : List Poi), l2 ≠ [] →
      Step.successOnEmptyBatch ∉ updatePoiDataSteps store2 (some l2)) := by
  have h := updatePoiDataSteps_1500 store l hlen hs
  refine ⟨h, ?_, ?_, ?_, ?_, eraseSteps_updatePoiDataSteps store (some l),
    updatePoiDataSteps_no_empty_batch⟩
  · simp [chunkAt, List.length_take, List.length_drop, hlen]
  · simp [chunkAt, List.length_take, List.length_drop, hlen]
  · exact (steps_1500_no_empty_batch store l hlen hs).1
  · exact (steps_1500_no_empty_batch store l hlen hs).2

/-- Witness of C29 (amended) at 1500 copies of a record and a store that always
succeeds. -/
theorem C29_success_after_second_insert_witness :
    (List.replicate 1500 examplePoi).length = 1500 ∧
    exampleStore.succeedsOn (List.replicate 1500 examplePoi) ∧
    Step.successOnEmptyBatch ∉
      updatePoiDataSteps exampleStore (some (List.replicate 1500 examplePoi)) :=
  ⟨List.length_replicate _ _, exampleStore_succeedsOn _,
    (C29_success_after_second_insert exampleStore (List.replicate 1500 examplePoi)
      (List.length_replicate _ _) (exampleStore_succeedsOn _)).2.2.2.1⟩

end MapSearch
